import Mathlib

/-!
# Verification of the cricket simulation engine

Shallow embedding of the core simulation code (`src/models/player.py`,
`src/models/team.py`, `src/models/match.py`, `src/simulation/engine.py`).

Python floats are modelled as rationals (`ℚ`); the ambient random source is
modelled explicitly: each call to `simulate_ball` consumes one `Draws` record
holding the uniform draws (and the no-ball coin) that the Python code obtains
from `random.random()` / `random.randint(0, 1)`, and an innings consumes a
finite list of such records (the Python loop reads an unbounded stream; every
theorem below is stated for an arbitrary finite prefix, which covers every
terminating run).
-/

namespace Cricket

/-- A player, reduced to the fields the simulation core reads:
`name`, `batting_stats.average`, `batting_stats.strike_rate`,
`bowling_stats.average`, `bowling_stats.economy` (from `player.py`). -/
structure Player where
  name : String
  battingAverage : ℚ
  strikeRate : ℚ
  bowlingAverage : ℚ
  economyRate : ℚ
  role : String
  deriving DecidableEq, Repr

/-- Constants from the top of `player.py`. -/
def BASE_DISMISSAL_PROBABILITY : ℚ := 0.025

def MIN_DISMISSAL_PROBABILITY : ℚ := 0.005

def MAX_DISMISSAL_PROBABILITY : ℚ := 0.08

def BATTING_AVERAGE_BASELINE : ℚ := 37.5

def MIN_BATTING_AVERAGE : ℚ := 15.0

def BOWLING_AVERAGE_BASELINE : ℚ := 30.0

def MIN_BOWLING_AVERAGE : ℚ := 20.0

def MIN_DOT_PROBABILITY : ℚ := 0.35

def MAX_DOT_PROBABILITY : ℚ := 0.55

def SINGLE_PROBABILITY : ℚ := 0.30

def TWO_PROBABILITY : ℚ := 0.10

def THREE_PROBABILITY : ℚ := 0.02

def MIN_FOUR_PROBABILITY : ℚ := 0.05

def MAX_FOUR_PROBABILITY : ℚ := 0.15

def MIN_SIX_PROBABILITY : ℚ := 0.02

def MAX_SIX_PROBABILITY : ℚ := 0.10

/-- `Player.calculate_dismissal_probability` from `player.py` (lines 171-199). -/
def calculate_dismissal_probability (self : Player) (bowler : Option Player) : ℚ :=
  let batting_factor := BATTING_AVERAGE_BASELINE / max self.battingAverage MIN_BATTING_AVERAGE
  let bowler_factor : ℚ :=
    match bowler with
    | some b =>
        if b.bowlingAverage > 0 then
          BOWLING_AVERAGE_BASELINE / max b.bowlingAverage MIN_BOWLING_AVERAGE
        else 1.0
    | none => 1.0
  let prob := BASE_DISMISSAL_PROBABILITY * batting_factor * bowler_factor
  max MIN_DISMISSAL_PROBABILITY (min MAX_DISMISSAL_PROBABILITY prob)

/-- The aggression quantity computed inside `calculate_scoring_probabilities`. -/
def aggression (self : Player) (bowler : Option Player) : ℚ :=
  let economy_factor : ℚ :=
    match bowler with
    | some b => if b.economyRate > 0 then b.economyRate / 6.0 else 1.0
    | none => 1.0
  (self.strikeRate / 100.0) * economy_factor

/-- `Player.calculate_scoring_probabilities` from `player.py` (lines 201-253).
The Python dict has keys `0,1,2,3,4,6` in this insertion order; we return the
association list in the same (ascending) order. -/
def calculate_scoring_probabilities (self : Player) (bowler : Option Player) :
    List (ℕ × ℚ) :=
  let aggr := aggression self bowler
  let dot_prob := max MIN_DOT_PROBABILITY (MAX_DOT_PROBABILITY - aggr * 0.15)
  let single_prob := SINGLE_PROBABILITY
  let two_prob := TWO_PROBABILITY
  let three_prob := THREE_PROBABILITY
  let four_prob := min MAX_FOUR_PROBABILITY (MIN_FOUR_PROBABILITY + aggr * 0.08)
  let six_prob := min MAX_SIX_PROBABILITY (MIN_SIX_PROBABILITY + aggr * 0.06)
  let total := dot_prob + single_prob + two_prob + three_prob + four_prob + six_prob
  [(0, dot_prob / total), (1, single_prob / total), (2, two_prob / total),
   (3, three_prob / total), (4, four_prob / total), (6, six_prob / total)]

/-! ## Ball simulator (`engine.py`, `SimulationEngine.simulate_ball`) -/

/-- The random draws consumed by one call to `simulate_ball`: the Python code
calls `random.random()` for the extras check, the wide/no-ball split, the
wicket check and the scoring draw, and `random.randint(0, 1)` for the extra
run on a no-ball (`noBallCoin = true` means that `randint` returned 1). -/
structure Draws where
  rExtra : ℚ
  rExtraType : ℚ
  noBallCoin : Bool
  rWicket : ℚ
  rScore : ℚ
  deriving DecidableEq, Repr

/-- `BallResult` from `engine.py` (the `batsman`/`bowler` fields are only read
by `__repr__` and are dropped here). -/
structure BallResult where
  runs : ℕ
  is_wicket : Bool
  is_extra : Bool
  extra_type : String
  deriving DecidableEq, Repr

/-- The `for runs, prob in sorted(scoring_probs.items())` loop of
`simulate_ball`: accumulate probability mass in ascending run order and return
the first run value whose cumulative mass exceeds the draw; fall back to a dot
ball if the loop completes. -/
def pick_runs (rand : ℚ) : ℚ → List (ℕ × ℚ) → ℕ
  | _, [] => 0
  | cumulative, (runs, prob) :: rest =>
    if rand < cumulative + prob then runs else pick_runs rand (cumulative + prob) rest

/-- `SimulationEngine.simulate_ball` from `engine.py` (lines 62-99). -/
def simulate_ball (d : Draws) (batsman bowler : Player) : BallResult :=
  if d.rExtra < 0.05 then
    let extra_type := if d.rExtraType < 0.7 then "wide" else "no-ball"
    let runs := if extra_type = "wide" then 1 else 1 + (if d.noBallCoin then 1 else 0)
    { runs := runs, is_wicket := false, is_extra := true, extra_type := extra_type }
  else if d.rWicket < calculate_dismissal_probability batsman (some bowler) then
    { runs := 0, is_wicket := true, is_extra := false, extra_type := "" }
  else
    { runs := pick_runs d.rScore 0 (calculate_scoring_probabilities batsman (some bowler)),
      is_wicket := false, is_extra := false, extra_type := "" }

/-! ## Python `dict` as an insertion-ordered association list

Python dicts preserve insertion order; assigning to an existing key keeps its
position, assigning to a fresh key appends. -/

/-- `d[k]` with a default for an absent key (the engine only reads keys it has
inserted, so the default is never observed on the Python side). -/
def dictGet : List (String × α) → String → α → α
  | [], _, dflt => dflt
  | (k', v) :: rest, k, dflt => if k' = k then v else dictGet rest k dflt

/-- `k in d`. -/
def dictContains : List (String × α) → String → Bool
  | [], _ => false
  | (k', _) :: rest, k => k' = k || dictContains rest k

/-- `d[k] = v`: update the (first) binding of `k` in place, or append. -/
def dictSet : List (String × α) → String → α → List (String × α)
  | [], k, v => [(k, v)]
  | (k', v') :: rest, k, v => if k' = k then (k', v) :: rest else (k', v') :: dictSet rest k v

/-- `{**d1, **d2}`. -/
def dictMerge (d1 d2 : List (String × α)) : List (String × α) :=
  d2.foldl (fun acc p => dictSet acc p.1 p.2) d1

def keysOf (d : List (String × α)) : List String := d.map Prod.fst

def sumVals (d : List (String × ℕ)) : ℕ := (d.map Prod.snd).sum

/-! ## Innings state (`match.py`, `InningsData`) -/

/-- One bowler's entry of `InningsData.bowling_figures`
(`{'overs': .., 'runs': .., 'wickets': ..}`). -/
structure BowlFig where
  overs : ℕ
  runs : ℕ
  wickets : ℕ
  deriving DecidableEq, Repr

/-- `InningsData` from `match.py` (lines 31-49). The `partnerships` and
`ball_by_ball` fields are omitted: the engine never writes or reads them
(they stay `[]` for the whole simulation). -/
structure InningsData where
  score : ℕ
  wickets : ℕ
  overs : ℕ
  balls : ℕ
  extras : ℕ
  batting_scores : List (String × ℕ)
  batting_balls : List (String × ℕ)
  bowling_figures : List (String × BowlFig)
  fall_of_wickets : List (ℕ × ℕ × String)
  deriving DecidableEq, Repr

/-- `InningsData.__init__`. -/
def emptyInnings : InningsData :=
  { score := 0, wickets := 0, overs := 0, balls := 0, extras := 0,
    batting_scores := [], batting_balls := [], bowling_figures := [],
    fall_of_wickets := [] }

/-- Placeholder used for out-of-range list reads that the guarded code never
performs (mirrors Python's constructor defaults). -/
def dummyPlayer : Player :=
  { name := "", battingAverage := 30, strikeRate := 100, bowlingAverage := 30,
    economyRate := 6, role := "batsman" }

/-- The engine's per-innings mutable locals besides the `InningsData` itself:
`striker`, `non_striker`, `self.batsmen_index`, `self.bowler_index`, and
`self.bowler_overs`. -/
structure LoopState where
  innings : InningsData
  striker : Player
  nonStriker : Player
  batsmenIndex : ℕ
  bowlerIndex : ℕ
  bowlerOvers : List (String × ℕ)
  deriving DecidableEq, Repr

/-- `bowlers[self.bowler_index % len(bowlers)]`. -/
def currentBowler (bowlers : List Player) (idx : ℕ) : Player :=
  bowlers.getD (idx % bowlers.length) dummyPlayer

/-- Python's `if target and innings.score >= target`: `None` and `0` are both
falsy, so the chase check fires only for a nonzero target. -/
def target_is_reached (target : Option ℤ) (score : ℕ) : Bool :=
  match target with
  | none => false
  | some t => t ≠ 0 && t ≤ (score : ℤ)

/-- `if current_bowler.name not in innings.bowling_figures: ... = {0,0,0}`. -/
def ensureBowlFig (d : List (String × BowlFig)) (k : String) : List (String × BowlFig) :=
  if dictContains d k then d else dictSet d k { overs := 0, runs := 0, wickets := 0 }

/-- `innings.bowling_figures[k]['runs'] += r` (key present at every use site). -/
def updBowlRuns (d : List (String × BowlFig)) (k : String) (r : ℕ) : List (String × BowlFig) :=
  let f := dictGet d k { overs := 0, runs := 0, wickets := 0 }
  dictSet d k { f with runs := f.runs + r }

/-- `innings.bowling_figures[k]['wickets'] += 1`. -/
def updBowlWickets (d : List (String × BowlFig)) (k : String) : List (String × BowlFig) :=
  let f := dictGet d k { overs := 0, runs := 0, wickets := 0 }
  dictSet d k { f with wickets := f.wickets + 1 }

/-- `innings.bowling_figures[k]['overs'] += 1`. -/
def updBowlOvers (d : List (String × BowlFig)) (k : String) : List (String × BowlFig) :=
  let f := dictGet d k { overs := 0, runs := 0, wickets := 0 }
  dictSet d k { f with overs := f.overs + 1 }

/-- The `if innings.balls == 6:` block at the end of a loop iteration
(`engine.py` lines 225-236): close the over, swap the batters and rotate the
bowler. Reached after every legal delivery except the all-out `break`. -/
def endOfOverPhase (bowlers : List Player) (st : LoopState) : LoopState :=
  if st.innings.balls = 6 then
    let bowler := currentBowler bowlers st.bowlerIndex
    { st with
      innings := { st.innings with
        overs := st.innings.overs + 1,
        balls := 0,
        bowling_figures := updBowlOvers st.innings.bowling_figures bowler.name },
      bowlerOvers := dictSet st.bowlerOvers bowler.name
        (dictGet st.bowlerOvers bowler.name 0 + 1),
      striker := st.nonStriker,
      nonStriker := st.striker,
      bowlerIndex := st.bowlerIndex + 1 }
  else st

/-- The `if result.is_extra:` block (`engine.py` lines 162-177): add the runs
to score and extras and to the bowler's conceded runs; nothing else changes
and the delivery does not count towards the over. -/
def extraPhase (bowler : Player) (runs : ℕ) (st : LoopState) : LoopState :=
  let inn := st.innings
  let inn := { inn with extras := inn.extras + runs, score := inn.score + runs }
  { st with
    innings := { inn with
      bowling_figures :=
        updBowlRuns (ensureBowlFig inn.bowling_figures bowler.name) bowler.name runs } }

/-- The legal-delivery bookkeeping common to wickets and runs (`engine.py`
lines 179-187): count the ball, count the striker's ball faced, and make sure
the bowler has a figures entry. -/
def legalBallPhase (bowler : Player) (st : LoopState) : LoopState :=
  let inn := st.innings
  { st with
    innings := { inn with
      balls := inn.balls + 1,
      batting_balls :=
        dictSet inn.batting_balls st.striker.name
          (dictGet inn.batting_balls st.striker.name 0 + 1),
      bowling_figures := ensureBowlFig inn.bowling_figures bowler.name } }

/-- The wicket bookkeeping (`engine.py` lines 189-192): wicket count, bowler's
wicket tally and the fall-of-wicket record (appended after the increment, so
it carries the post-wicket count). -/
def wicketPhase (bowler : Player) (st : LoopState) : LoopState :=
  let inn := st.innings
  let inn :=
    { inn with
      wickets := inn.wickets + 1,
      bowling_figures := updBowlWickets inn.bowling_figures bowler.name }
  { st with
    innings := { inn with
      fall_of_wickets :=
        inn.fall_of_wickets ++ [(inn.score, inn.wickets, st.striker.name)] } }

/-- The next-batsman introduction (`engine.py` lines 199-203): the incoming
player becomes striker with zeroed entries in the batting dicts. -/
def newBatsmanPhase (newStriker : Player) (st : LoopState) : LoopState :=
  let inn := st.innings
  { st with
    innings := { inn with
      batting_scores := dictSet inn.batting_scores newStriker.name 0,
      batting_balls := dictSet inn.batting_balls newStriker.name 0 },
    striker := newStriker,
    batsmenIndex := st.batsmenIndex + 1 }

/-- The runs-scored bookkeeping (`engine.py` lines 210-222): score, striker's
tally, bowler's conceded runs, and the end change on odd runs. -/
def runsPhase (bowler : Player) (runs : ℕ) (st : LoopState) : LoopState :=
  let inn := st.innings
  let inn :=
    { inn with
      score := inn.score + runs,
      batting_scores :=
        dictSet inn.batting_scores st.striker.name
          (dictGet inn.batting_scores st.striker.name 0 + runs),
      bowling_figures := updBowlRuns inn.bowling_figures bowler.name runs }
  if runs % 2 = 1 then
    { st with innings := inn, striker := st.nonStriker, nonStriker := st.striker }
  else { st with innings := inn }

/-- One iteration of the `while` loop of `simulate_innings` (`engine.py`
lines 151-241). `.inr st` means the loop stops and returns `st` (loop guard
failed, chase target reached, or all out); `.inl st'` means the iteration
completed and the loop continues from `st'`. -/
def innStep (maxOvers : ℕ) (target : Option ℤ) (battingOrder bowlers : List Player)
    (st : LoopState) (d : Draws) : LoopState ⊕ LoopState :=
  if ¬(st.innings.wickets < 10 ∧ st.innings.overs < maxOvers) then .inr st
  else if target_is_reached target st.innings.score then .inr st
  else
    let bowler := currentBowler bowlers st.bowlerIndex
    let result := simulate_ball d st.striker bowler
    if result.is_extra then .inl (extraPhase bowler result.runs st)
    else
      let st1 := legalBallPhase bowler st
      if result.is_wicket then
        let st2 := wicketPhase bowler st1
        if st2.batsmenIndex < battingOrder.length then
          .inl (endOfOverPhase bowlers
            (newBatsmanPhase (battingOrder.getD st2.batsmenIndex dummyPlayer) st2))
        else .inr st2
      else .inl (endOfOverPhase bowlers (runsPhase bowler result.runs st1))

/-- The `while` loop of `simulate_innings`, driven by a finite prefix of the
random stream (one `Draws` per iteration; the loop also stops when the prefix
is exhausted). -/
def innLoop (maxOvers : ℕ) (target : Option ℤ) (battingOrder bowlers : List Player) :
    LoopState → List Draws → LoopState
  | st, [] => st
  | st, d :: ds =>
    match innStep maxOvers target battingOrder bowlers st d with
    | .inl st' => innLoop maxOvers target battingOrder bowlers st' ds
    | .inr stop => stop

/-- The initialisation part of `simulate_innings` (lines 128-141): first two
batters at the crease with zeroed figures, `batsmen_index = 2`, first bowler
opens, `bowler_overs` zeroed for every bowler. -/
def initLoopState (battingOrder bowlers : List Player) : LoopState :=
  let striker := battingOrder.getD 0 dummyPlayer
  let nonStriker := battingOrder.getD 1 dummyPlayer
  { innings := { emptyInnings with
      batting_scores := dictSet (dictSet [] striker.name 0) nonStriker.name 0,
      batting_balls := dictSet (dictSet [] striker.name 0) nonStriker.name 0 },
    striker := striker,
    nonStriker := nonStriker,
    batsmenIndex := 2,
    bowlerIndex := 0,
    bowlerOvers := bowlers.foldl (fun dct b => dictSet dct b.name 0) [] }

/-- `SimulationEngine.simulate_innings` (lines 101-248), parametrised directly
by the batting order and bowler list (the source derives them from the two
`Team` objects; see `simulate_innings` below). The two roster checks raise
`ValueError`, modelled as `Except.error` carrying the message. -/
def simulate_innings_from (battingTeamName bowlingTeamName : String)
    (battingOrder bowlers : List Player) (maxOvers : ℕ) (target : Option ℤ)
    (draws : List Draws) : Except String InningsData :=
  if battingOrder.length < 2 then
    .error ("Team " ++ battingTeamName ++ " needs at least 2 players")
  else if bowlers.length < 1 then
    .error ("Team " ++ bowlingTeamName ++ " needs at least 1 bowler")
  else
    .ok (innLoop maxOvers target battingOrder bowlers
      (initLoopState battingOrder bowlers) draws).innings

/-! ## Teams (`team.py`) -/

/-- A team, reduced to the fields the simulation reads. -/
structure Team where
  name : String
  players : List Player
  deriving DecidableEq, Repr

/-- Python's `list.sort` is a stable sort; this structurally recursive stable
insertion models it: each element is placed after every already-placed element
whose key does not compare strictly greater. -/
def stableInsert (le : α → α → Bool) (x : α) : List α → List α
  | [] => [x]
  | y :: ys => if le y x then y :: stableInsert le x ys else x :: y :: ys

/-- Stable sort with respect to the boolean preorder `le` (same function as
Python's stable `list.sort`). -/
def stableSort (le : α → α → Bool) (xs : List α) : List α :=
  xs.foldl (fun acc x => stableInsert le x acc) []

/-- `ps.sort(key=lambda p: p.batting_stats.average, reverse=True)`. -/
def sortByBattingAvgDesc (ps : List Player) : List Player :=
  stableSort (fun a b => decide (b.battingAverage ≤ a.battingAverage)) ps

/-- The sort key of `Team.get_bowlers`:
`p.bowling_stats.average if p.bowling_stats.average > 0 else 999`. -/
def bowlSortKey (p : Player) : ℚ :=
  if p.bowlingAverage > 0 then p.bowlingAverage else 999

/-- `Team.get_batting_order` from `team.py` (lines 107-152). -/
def get_batting_order (t : Team) : List Player :=
  let batsmen := sortByBattingAvgDesc (t.players.filter (fun p => p.role = "batsman"))
  let wicket_keepers :=
    sortByBattingAvgDesc (t.players.filter (fun p => p.role = "wicket-keeper"))
  let all_rounders :=
    sortByBattingAvgDesc (t.players.filter (fun p => p.role = "all-rounder"))
  let bowlers := sortByBattingAvgDesc (t.players.filter (fun p => p.role = "bowler"))
  batsmen.take 3 ++ wicket_keepers ++ all_rounders ++ batsmen.drop 3 ++ bowlers

/-- `Team.get_bowlers` from `team.py` (lines 154-170). -/
def get_bowlers (t : Team) : List Player :=
  let bowlers :=
    stableSort (fun a b => decide (bowlSortKey a ≤ bowlSortKey b))
      (t.players.filter (fun p => p.role = "bowler"))
  let all_rounders :=
    stableSort (fun a b => decide (bowlSortKey a ≤ bowlSortKey b))
      (t.players.filter (fun p => p.role = "all-rounder"))
  bowlers ++ all_rounders

/-- `SimulationEngine.simulate_innings` as called with two `Team` objects. -/
def simulate_innings (battingTeam bowlingTeam : Team) (maxOvers : ℕ)
    (target : Option ℤ) (draws : List Draws) : Except String InningsData :=
  simulate_innings_from battingTeam.name bowlingTeam.name
    (get_batting_order battingTeam) (get_bowlers bowlingTeam) maxOvers target draws

/-! ## Match orchestration (`engine.py`, `simulate_match` and
`_select_player_of_match`; `match.py`, `get_max_overs`) -/

/-- `MatchFormat` from `match.py`. -/
inductive MatchFormat
  | T20
  | ODI
  | TestM
  deriving DecidableEq, Repr

/-- `Match.get_max_overs` from `match.py` (lines 165-177). -/
def get_max_overs : MatchFormat → ℕ
  | .T20 => 20
  | .ODI => 50
  | .TestM => 90

/-- Python's `max(d, key=f)` over dict entries: scan left to right, replace the
current best only on a strictly greater key value (first maximum wins). -/
def pickMax (f : α → ℕ) : (String × α) → List (String × α) → (String × α)
  | best, [] => best
  | best, p :: rest => pickMax f (if f p.2 > f best.2 then p else best) rest

/-- The `for team in [self.match.team_a, self.match.team_b]: for player in
team.players: if player.name == name: return player` lookup of
`_select_player_of_match`. -/
def findPlayer (teamA teamB : Team) (name : String) : Option Player :=
  (teamA.players ++ teamB.players).find? (fun p => p.name = name)

/-- `SimulationEngine._select_player_of_match` (`engine.py` lines 350-400).
When a name lookup finds no player the Python `for` loops fall through to the
next check, which the nested `match`es reproduce. `if top_scorer_name:` is
Python truthiness: both `None` and the empty string fail it. -/
def select_player_of_match (teamA teamB : Team) (inn1 inn2 : InningsData) :
    Option Player :=
  let all_batting := dictMerge inn1.batting_scores inn2.batting_scores
  let all_bowling := dictMerge inn1.bowling_figures inn2.bowling_figures
  let topScorer : Option (String × ℕ) :=
    match all_batting with
    | [] => none
    | p :: rest => some (pickMax id p rest)
  let top_score : ℕ :=
    match topScorer with
    | some p => p.2
    | none => 0
  let topBowler : Option (String × BowlFig) :=
    match all_bowling with
    | [] => none
    | p :: rest => some (pickMax BowlFig.wickets p rest)
  let top_wickets : ℕ :=
    match topBowler with
    | some p => p.2.wickets
    | none => 0
  let afterWickets : Option Player :=
    if top_wickets ≥ 3 then
      match topBowler with
      | some p => findPlayer teamA teamB p.1
      | none => none
    else none
  match afterWickets with
  | some p => some p
  | none =>
    let afterRuns : Option Player :=
      if top_score ≥ 40 then
        match topScorer with
        | some p => findPlayer teamA teamB p.1
        | none => none
      else none
    match afterRuns with
    | some p => some p
    | none =>
      match topScorer with
      | some p => if p.1 ≠ "" then findPlayer teamA teamB p.1 else none
      | none => none

/-- The fields of the `Match` object that `simulate_match` fills in (the
venue/date/status bookkeeping and the `overs` floats used only for display are
omitted; `status` is `COMPLETED` exactly when the simulation returns `.ok`). -/
structure MatchResult where
  innings1 : InningsData
  innings2 : InningsData
  winner : Option Team
  result_text : String
  player_of_match : Option Player
  team_a_score : ℕ
  team_a_wickets : ℕ
  team_b_score : ℕ
  team_b_wickets : ℕ
  toss_winner : Team
  elected_to : String
  deriving DecidableEq, Repr

/-- The toss outcome: `random.choice([team_a, team_b])` is modelled by
`tossCoin` (`true` picks `team_a`) and the election draw by `electDraw`
(`"bat"` iff `electDraw < 0.6`). -/
def toss_winner_team (teamA teamB : Team) (tossCoin : Bool) : Team :=
  if tossCoin then teamA else teamB

def elected_choice (electDraw : ℚ) : String :=
  if electDraw < 0.6 then "bat" else "bowl"

/-- The `first_batting` team determined from the toss (`engine.py` 267-273). -/
def first_batting_team (teamA teamB : Team) (tossCoin : Bool) (electDraw : ℚ) : Team :=
  let tw := toss_winner_team teamA teamB tossCoin
  if elected_choice electDraw = "bat" then tw
  else if tw = teamA then teamB else teamA

/-- The `first_bowling` team determined from the toss (`engine.py` 267-273). -/
def first_bowling_team (teamA teamB : Team) (tossCoin : Bool) (electDraw : ℚ) : Team :=
  let tw := toss_winner_team teamA teamB tossCoin
  if elected_choice electDraw = "bat" then (if tw = teamA then teamB else teamA)
  else tw

/-- `SimulationEngine.simulate_match` (`engine.py` lines 250-348). -/
def simulate_match (teamA teamB : Team) (fmt : MatchFormat) (tossCoin : Bool)
    (electDraw : ℚ) (draws1 draws2 : List Draws) : Except String MatchResult :=
  let first_batting := first_batting_team teamA teamB tossCoin electDraw
  let first_bowling := first_bowling_team teamA teamB tossCoin electDraw
  let maxOvers := get_max_overs fmt
  match simulate_innings first_batting first_bowling maxOvers none draws1 with
  | .error e => .error e
  | .ok innings1 =>
    let target : ℤ := (innings1.score : ℤ) + 1
    match simulate_innings first_bowling first_batting maxOvers (some target) draws2 with
    | .error e => .error e
    | .ok innings2 =>
      let winner : Option Team :=
        if innings2.score > innings1.score then some first_bowling
        else if innings2.score < innings1.score then some first_batting
        else none
      let result_text : String :=
        if innings2.score > innings1.score then
          first_bowling.name ++ " won by " ++ toString (10 - innings2.wickets) ++ " wickets"
        else if innings2.score < innings1.score then
          first_batting.name ++ " won by " ++
            toString (innings1.score - innings2.score) ++ " runs"
        else "Match tied"
      .ok { innings1 := innings1,
            innings2 := innings2,
            winner := winner,
            result_text := result_text,
            player_of_match := select_player_of_match teamA teamB innings1 innings2,
            team_a_score := if first_batting = teamA then innings1.score else innings2.score,
            team_a_wickets :=
              if first_batting = teamA then innings1.wickets else innings2.wickets,
            team_b_score := if first_batting = teamA then innings2.score else innings1.score,
            team_b_wickets :=
              if first_batting = teamA then innings2.wickets else innings1.wickets,
            toss_winner := toss_winner_team teamA teamB tossCoin,
            elected_to := elected_choice electDraw }

/-! ## Spec-side notions used to state the claims -/

/-- The spec's "combined per-player run totals across both innings",
keyed by player name. -/
def combinedRuns (inn1 inn2 : InningsData) (name : String) : ℕ :=
  dictGet inn1.batting_scores name 0 + dictGet inn2.batting_scores name 0

/-- The spec's "combined per-player wicket totals across both innings",
keyed by player name. -/
def combinedWickets (inn1 inn2 : InningsData) (name : String) : ℕ :=
  (dictGet inn1.bowling_figures name { overs := 0, runs := 0, wickets := 0 }).wickets +
  (dictGet inn2.bowling_figures name { overs := 0, runs := 0, wickets := 0 }).wickets

/-! ## Invariants of the innings loop -/

/-- Facts holding at every state from which the loop is about to attempt a
delivery, for any batting order and bowler list. -/
def basicInv (maxOvers : ℕ) (st : LoopState) : Prop :=
  st.innings.wickets = st.innings.fall_of_wickets.length ∧
  st.innings.wickets ≤ 10 ∧
  st.innings.overs ≤ maxOvers ∧
  st.innings.balls ≤ 5

/-- Facts holding at states the loop is sitting in after the returned `.inr`
(the all-out `break` can leave `balls = 6`). -/
def basicFinal (maxOvers : ℕ) (st : LoopState) : Prop :=
  st.innings.wickets = st.innings.fall_of_wickets.length ∧
  st.innings.wickets ≤ 10 ∧
  st.innings.overs ≤ maxOvers ∧
  st.innings.balls ≤ 6

/-- The bookkeeping invariant for the score equation and the dict keys; its
preservation needs the batting-order names to be pairwise distinct (a fresh
batsman whose name collides with an existing key would reset that key's
runs). -/
def scoreInv (battingOrder bowlers : List Player) (st : LoopState) : Prop :=
  st.innings.score = sumVals st.innings.batting_scores + st.innings.extras ∧
  keysOf st.innings.batting_scores = (battingOrder.take st.batsmenIndex).map Player.name ∧
  st.striker.name ∈ keysOf st.innings.batting_scores ∧
  st.nonStriker.name ∈ keysOf st.innings.batting_scores ∧
  st.batsmenIndex ≤ battingOrder.length ∧
  keysOf st.innings.bowling_figures ⊆ bowlers.map Player.name ∧
  (keysOf st.innings.bowling_figures).Nodup

/-- What `scoreInv` gives about the state returned by the loop. -/
def scoreFinal (battingOrder bowlers : List Player) (st : LoopState) : Prop :=
  st.innings.score = sumVals st.innings.batting_scores + st.innings.extras ∧
  keysOf st.innings.batting_scores ⊆ battingOrder.map Player.name ∧
  (keysOf st.innings.batting_scores).Nodup ∧
  keysOf st.innings.bowling_figures ⊆ bowlers.map Player.name ∧
  (keysOf st.innings.bowling_figures).Nodup

/-! ## Concrete players, teams and draw sequences used for witnesses and
counterexamples -/

def batX : Player :=
  { name := "X", battingAverage := 37.5, strikeRate := 100, bowlingAverage := 30,
    economyRate := 6, role := "batsman" }

def batY : Player :=
  { name := "Y", battingAverage := 37.5, strikeRate := 100, bowlingAverage := 30,
    economyRate := 6, role := "batsman" }

/-- A second, distinct batter who shares the name `"X"` with `batX`. -/
def batX2 : Player :=
  { name := "X", battingAverage := 20, strikeRate := 90, bowlingAverage := 30,
    economyRate := 6, role := "batsman" }

def bowlerB : Player :=
  { name := "B", battingAverage := 10, strikeRate := 70, bowlingAverage := 30,
    economyRate := 6, role := "bowler" }

/-- A batter with a (malformed) negative strike rate. -/
def negSRBat : Player :=
  { name := "n", battingAverage := 30, strikeRate := -100, bowlingAverage := 30,
    economyRate := 6, role := "batsman" }

/-- A legal delivery scoring no runs (for `batX`-style ratings). -/
def dotBall : Draws :=
  { rExtra := 0.5, rExtraType := 0, noBallCoin := false, rWicket := 0.5, rScore := 0.1 }

/-- A legal delivery scoring a single. -/
def singleBall : Draws :=
  { rExtra := 0.5, rExtraType := 0, noBallCoin := false, rWicket := 0.5, rScore := 0.5 }

/-- A legal delivery scoring a boundary four. -/
def fourBall : Draws :=
  { rExtra := 0.5, rExtraType := 0, noBallCoin := false, rWicket := 0.5, rScore := 0.9 }

/-- A delivery on which the striker is dismissed. -/
def wicketBall : Draws :=
  { rExtra := 0.5, rExtraType := 0, noBallCoin := false, rWicket := 0.01, rScore := 0.5 }

/-- A wide. -/
def wideBall : Draws :=
  { rExtra := 0.01, rExtraType := 0.1, noBallCoin := false, rWicket := 0.5, rScore := 0.5 }

/-- A loop state with five runs already on the board (used to exercise the
chase cut-off). -/
def chaseState : LoopState :=
  { initLoopState [batX, batY] [bowlerB] with
    innings := { (initLoopState [batX, batY] [bowlerB]).innings with score := 5 } }

def pBat1 : Player :=
  { name := "p1", battingAverage := 40, strikeRate := 100, bowlingAverage := 30,
    economyRate := 6, role := "batsman" }

def pBat2 : Player :=
  { name := "p2", battingAverage := 30, strikeRate := 100, bowlingAverage := 30,
    economyRate := 6, role := "batsman" }

def pBowl : Player :=
  { name := "pb", battingAverage := 10, strikeRate := 70, bowlingAverage := 25,
    economyRate := 6, role := "bowler" }

def qBat1 : Player :=
  { name := "q1", battingAverage := 40, strikeRate := 100, bowlingAverage := 30,
    economyRate := 6, role := "batsman" }

def qBat2 : Player :=
  { name := "q2", battingAverage := 30, strikeRate := 100, bowlingAverage := 30,
    economyRate := 6, role := "batsman" }

def qBowl : Player :=
  { name := "qb", battingAverage := 10, strikeRate := 70, bowlingAverage := 25,
    economyRate := 6, role := "bowler" }

def teamP : Team := { name := "P", players := [pBat1, pBat2, pBowl] }

def teamQ : Team := { name := "Q", players := [qBat1, qBat2, qBowl] }

/-- A batter whose name is the empty string (Python-falsy). -/
def batE0 : Player :=
  { name := "", battingAverage := 40, strikeRate := 100, bowlingAverage := 30,
    economyRate := 6, role := "batsman" }

def batE1 : Player :=
  { name := "e1", battingAverage := 30, strikeRate := 100, bowlingAverage := 30,
    economyRate := 6, role := "batsman" }

def bowlE : Player :=
  { name := "eb", battingAverage := 10, strikeRate := 70, bowlingAverage := 25,
    economyRate := 6, role := "bowler" }

def batF1 : Player :=
  { name := "f1", battingAverage := 40, strikeRate := 100, bowlingAverage := 30,
    economyRate := 6, role := "batsman" }

def batF2 : Player :=
  { name := "f2", battingAverage := 30, strikeRate := 100, bowlingAverage := 30,
    economyRate := 6, role := "batsman" }

def bowlF : Player :=
  { name := "fb", battingAverage := 10, strikeRate := 70, bowlingAverage := 25,
    economyRate := 6, role := "bowler" }

def teamE : Team := { name := "E", players := [batE0, batE1, bowlE] }

def teamF : Team := { name := "F", players := [batF1, batF2, bowlF] }

/-- Unconditional key-tracking invariant of the innings loop: every key of the
name-keyed dicts comes from the respective roster, and no dict ever holds a
duplicate key (Python dicts cannot). Used to reason about the
player-of-match selection. -/
def keysInv (battingOrder bowlers : List Player) (st : LoopState) : Prop :=
  keysOf st.innings.batting_scores ⊆ battingOrder.map Player.name ∧
  (keysOf st.innings.batting_scores).Nodup ∧
  keysOf st.innings.bowling_figures ⊆ bowlers.map Player.name ∧
  (keysOf st.innings.bowling_figures).Nodup ∧
  st.striker.name ∈ battingOrder.map Player.name ∧
  st.nonStriker.name ∈ battingOrder.map Player.name

/-- The match record produced by the concrete witness match of claim C2
(teams `P` and `Q`, toss won by `P` electing to bat, first innings two
wickets in two balls, second innings a winning single). -/
def c2MatchResult : MatchResult where
  innings1 :=
    { score := 0, wickets := 2, overs := 0, balls := 2, extras := 0,
      batting_scores := [("p1", 0), ("p2", 0), ("pb", 0)],
      batting_balls := [("p1", 1), ("p2", 0), ("pb", 1)],
      bowling_figures := [("qb", { overs := 0, runs := 0, wickets := 2 })],
      fall_of_wickets := [(0, 1, "p1"), (0, 2, "pb")] }
  innings2 :=
    { score := 1, wickets := 0, overs := 0, balls := 1, extras := 0,
      batting_scores := [("q1", 1), ("q2", 0)],
      batting_balls := [("q1", 1), ("q2", 0)],
      bowling_figures := [("pb", { overs := 0, runs := 1, wickets := 0 })],
      fall_of_wickets := [] }
  winner := some teamQ
  result_text := "Q won by 10 wickets"
  player_of_match := some qBat1
  team_a_score := 0
  team_a_wickets := 2
  team_b_score := 1
  team_b_wickets := 0
  toss_winner := teamP
  elected_to := "bat"

/-- The match record produced by the concrete C4 counterexample match
(teams `E` and `F`; the opening batter of `E` has the empty string as name,
scores the only run of the match, and no bowler reaches three wickets). -/
def c4MatchResult : MatchResult where
  innings1 :=
    { score := 1, wickets := 2, overs := 0, balls := 3, extras := 0,
      batting_scores := [("", 1), ("e1", 0), ("eb", 0)],
      batting_balls := [("", 1), ("e1", 1), ("eb", 1)],
      bowling_figures := [("fb", { overs := 0, runs := 1, wickets := 2 })],
      fall_of_wickets := [(1, 1, "e1"), (1, 2, "eb")] }
  innings2 :=
    { score := 0, wickets := 2, overs := 0, balls := 2, extras := 0,
      batting_scores := [("f1", 0), ("f2", 0), ("fb", 0)],
      batting_balls := [("f1", 1), ("f2", 0), ("fb", 1)],
      bowling_figures := [("eb", { overs := 0, runs := 0, wickets := 2 })],
      fall_of_wickets := [(0, 1, "f1"), (0, 2, "fb")] }
  winner := some teamE
  result_text := "E won by 1 runs"
  player_of_match := none
  team_a_score := 1
  team_a_wickets := 2
  team_b_score := 0
  team_b_wickets := 2
  toss_winner := teamE
  elected_to := "bat"

/-! ## Lemmas about the dict model -/

theorem keysOf_nil {α : Type} : keysOf ([] : List (String × α)) = [] := rfl

theorem keysOf_cons {α : Type} (k : String) (v : α) (d : List (String × α)) :
    keysOf ((k, v) :: d) = k :: keysOf d := rfl

theorem keysOf_append {α : Type} (d1 d2 : List (String × α)) :
    keysOf (d1 ++ d2) = keysOf d1 ++ keysOf d2 :=
  List.map_append _ _ _

theorem sumVals_cons (k : String) (v : ℕ) (d : List (String × ℕ)) :
    sumVals ((k, v) :: d) = v + sumVals d := rfl

theorem sumVals_append (d1 d2 : List (String × ℕ)) :
    sumVals (d1 ++ d2) = sumVals d1 + sumVals d2 := by
  simp [sumVals]

theorem dictContains_eq_true_iff {α : Type} (d : List (String × α)) (k : String) :
    dictContains d k = true ↔ k ∈ keysOf d := by
  induction d with
  | nil => simp [dictContains, keysOf]
  | cons p rest ih =>
    cases p with
    | mk k' v =>
      simp only [dictContains, Bool.or_eq_true, decide_eq_true_eq, ih, keysOf_cons,
        List.mem_cons]
      constructor
      · rintro (h | h)
        · exact Or.inl h.symm
        · exact Or.inr h
      · rintro (h | h)
        · exact Or.inl h.symm
        · exact Or.inr h

theorem dictGet_of_not_mem {α : Type} {d : List (String × α)} {k : String}
    (dflt : α) (h : k ∉ keysOf d) : dictGet d k dflt = dflt := by
  induction d with
  | nil => rfl
  | cons p rest ih =>
    cases p with
    | mk k' v =>
      rw [keysOf_cons, List.mem_cons] at h
      push_neg at h
      simp only [dictGet]
      rw [if_neg (Ne.symm h.1)]
      exact ih h.2

theorem dictSet_of_not_mem {α : Type} {d : List (String × α)} {k : String}
    (v : α) (h : k ∉ keysOf d) : dictSet d k v = d ++ [(k, v)] := by
  induction d with
  | nil => rfl
  | cons p rest ih =>
    cases p with
    | mk k' v' =>
      rw [keysOf_cons, List.mem_cons] at h
      push_neg at h
      simp only [dictSet]
      rw [if_neg (Ne.symm h.1), ih h.2]
      rfl

theorem keysOf_dictSet_of_mem {α : Type} {d : List (String × α)} {k : String}
    (v : α) (h : k ∈ keysOf d) : keysOf (dictSet d k v) = keysOf d := by
  induction d with
  | nil => simp [keysOf] at h
  | cons p rest ih =>
    cases p with
    | mk k' v' =>
      rw [keysOf_cons, List.mem_cons] at h
      by_cases hk : k' = k
      · simp [dictSet, hk, keysOf_cons]
      · rcases h with h | h
        · exact absurd h.symm hk
        · simp [dictSet, hk, keysOf_cons, ih h]

theorem keysOf_dictSet_of_not_mem {α : Type} {d : List (String × α)} {k : String}
    (v : α) (h : k ∉ keysOf d) : keysOf (dictSet d k v) = keysOf d ++ [k] := by
  rw [dictSet_of_not_mem v h, keysOf_append]
  rfl

theorem keysOf_dictSet_subset {α : Type} (d : List (String × α)) (k : String) (v : α) :
    keysOf (dictSet d k v) ⊆ keysOf d ++ [k] := by
  by_cases h : k ∈ keysOf d
  · rw [keysOf_dictSet_of_mem v h]
    exact List.subset_append_left _ _
  · rw [keysOf_dictSet_of_not_mem v h]
    exact List.Subset.refl _

theorem nodup_keysOf_dictSet {α : Type} {d : List (String × α)} {k : String}
    (v : α) (h : (keysOf d).Nodup) : (keysOf (dictSet d k v)).Nodup := by
  by_cases hk : k ∈ keysOf d
  · rw [keysOf_dictSet_of_mem v hk]
    exact h
  · rw [keysOf_dictSet_of_not_mem v hk]
    simpa [List.nodup_append] using ⟨h, hk⟩

theorem dictGet_dictSet_self {α : Type} (d : List (String × α)) (k : String)
    (v dflt : α) : dictGet (dictSet d k v) k dflt = v := by
  induction d with
  | nil => simp [dictSet, dictGet]
  | cons p rest ih =>
    cases p with
    | mk k' v' =>
      by_cases hk : k' = k
      · simp [dictSet, dictGet, hk]
      · simp [dictSet, dictGet, hk, ih]

theorem dictGet_dictSet_ne {α : Type} {k k2 : String} (d : List (String × α))
    (v dflt : α) (h : k ≠ k2) : dictGet (dictSet d k v) k2 dflt = dictGet d k2 dflt := by
  induction d with
  | nil => simp [dictSet, dictGet, h]
  | cons p rest ih =>
    cases p with
    | mk k' v' =>
      by_cases hk : k' = k
      · subst hk
        simp [dictSet, dictGet, h]
      · simp [dictSet, dictGet, hk, ih]

theorem sumVals_dictSet_get_add (d : List (String × ℕ)) (k : String) (v : ℕ) :
    sumVals (dictSet d k (dictGet d k 0 + v)) = sumVals d + v := by
  induction d with
  | nil => simp [dictSet, dictGet, sumVals]
  | cons p rest ih =>
    cases p with
    | mk k' v' =>
      by_cases hk : k' = k
      · subst hk
        simp [dictSet, dictGet, sumVals_cons]
        omega
      · simp only [dictSet, dictGet, if_neg hk, sumVals_cons, ih]
        omega

theorem sumVals_dictSet_zero_of_not_mem {d : List (String × ℕ)} {k : String}
    (h : k ∉ keysOf d) : sumVals (dictSet d k 0) = sumVals d := by
  rw [dictSet_of_not_mem 0 h, sumVals_append]
  simp [sumVals]

theorem exists_mem_of_mem_keysOf {α : Type} {d : List (String × α)} {k : String}
    (h : k ∈ keysOf d) : ∃ v, (k, v) ∈ d := by
  induction d with
  | nil => simp [keysOf] at h
  | cons p rest ih =>
    cases p with
    | mk k' v' =>
      rw [keysOf_cons, List.mem_cons] at h
      rcases h with h | h
      · exact ⟨v', by simp [h]⟩
      · rcases ih h with ⟨v, hv⟩
        exact ⟨v, List.mem_cons_of_mem _ hv⟩

theorem dictGet_of_mem_nodup {α : Type} {d : List (String × α)} {k : String} {v : α}
    (dflt : α) (hn : (keysOf d).Nodup) (hm : (k, v) ∈ d) : dictGet d k dflt = v := by
  induction d with
  | nil => simp at hm
  | cons p rest ih =>
    cases p with
    | mk k' v' =>
      rw [keysOf_cons, List.nodup_cons] at hn
      rcases List.mem_cons.mp hm with h | h
      · cases h
        simp [dictGet]
      · have hk : k' ≠ k := by
          rintro rfl
          exact hn.1 (List.mem_map_of_mem Prod.fst h)
        simp [dictGet, hk, ih hn.2 h]

theorem dictMerge_eq_append {α : Type} {d1 d2 : List (String × α)}
    (hdisj : ∀ k ∈ keysOf d2, k ∉ keysOf d1) (hn : (keysOf d2).Nodup) :
    dictMerge d1 d2 = d1 ++ d2 := by
  induction d2 generalizing d1 with
  | nil => simp [dictMerge]
  | cons p rest ih =>
    cases p with
    | mk k v =>
      rw [keysOf_cons] at hdisj hn
      have hfresh : k ∉ keysOf d1 := hdisj k (List.mem_cons_self _ _)
      have step : dictSet d1 k v = d1 ++ [(k, v)] := dictSet_of_not_mem v hfresh
      have hdisj2 : ∀ k2 ∈ keysOf rest, k2 ∉ keysOf (d1 ++ [(k, v)]) := by
        intro k2 hk2
        rw [keysOf_append]
        simp only [List.mem_append]
        push_neg
        refine ⟨hdisj k2 (List.mem_cons_of_mem _ hk2), ?_⟩
        have : k2 ≠ k := by
          rintro rfl
          exact (List.nodup_cons.mp hn).1 hk2
        simpa [keysOf] using this
      have := ih hdisj2 (List.nodup_cons.mp hn).2
      calc dictMerge d1 ((k, v) :: rest)
          = dictMerge (dictSet d1 k v) rest := rfl
        _ = dictMerge (d1 ++ [(k, v)]) rest := by rw [step]
        _ = (d1 ++ [(k, v)]) ++ rest := this
        _ = d1 ++ ((k, v) :: rest) := by simp

theorem pickMax_mem {α : Type} (f : α → ℕ) (best : String × α)
    (rest : List (String × α)) : pickMax f best rest ∈ best :: rest := by
  induction rest generalizing best with
  | nil => simp [pickMax]
  | cons p rest ih =>
    rw [pickMax]
    have h := ih (if f p.2 > f best.2 then p else best)
    rcases List.mem_cons.mp h with h | h
    · rw [h]
      by_cases hc : f p.2 > f best.2
      · simp [hc]
      · simp [hc]
    · exact List.mem_cons_of_mem _ (List.mem_cons_of_mem _ h)

theorem pickMax_ge {α : Type} (f : α → ℕ) (best : String × α)
    (rest : List (String × α)) :
    ∀ q ∈ best :: rest, f q.2 ≤ f (pickMax f best rest).2 := by
  induction rest generalizing best with
  | nil =>
    intro q hq
    rcases List.mem_cons.mp hq with h | h
    · rw [h, pickMax]
    · simp at h
  | cons p rest ih =>
    intro q hq
    rw [pickMax]
    have hbest : f best.2 ≤ f (if f p.2 > f best.2 then p else best).2 := by
      by_cases hc : f p.2 > f best.2
      · rw [if_pos hc]
        exact le_of_lt hc
      · rw [if_neg hc]
    have hp : f p.2 ≤ f (if f p.2 > f best.2 then p else best).2 := by
      by_cases hc : f p.2 > f best.2
      · rw [if_pos hc]
      · rw [if_neg hc]
        exact le_of_not_lt hc
    rcases List.mem_cons.mp hq with h | h
    · rw [h]
      exact le_trans hbest (ih _ _ (List.mem_cons_self _ _))
    · rcases List.mem_cons.mp h with h | h
      · rw [h]
        exact le_trans hp (ih _ _ (List.mem_cons_self _ _))
      · exact ih _ q (List.mem_cons_of_mem _ h)

/-! ## Lemmas about the stable sort and the roster functions -/

theorem mem_stableInsert {α : Type} (le : α → α → Bool) (x a : α) (l : List α) :
    a ∈ stableInsert le x l ↔ a = x ∨ a ∈ l := by
  induction l with
  | nil => simp [stableInsert]
  | cons y ys ih =>
    by_cases h : le y x
    · rw [stableInsert, if_pos h]
      constructor
      · intro hm
        rcases List.mem_cons.mp hm with h1 | h1
        · exact Or.inr (List.mem_cons.mpr (Or.inl h1))
        · rcases ih.mp h1 with h2 | h2
          · exact Or.inl h2
          · exact Or.inr (List.mem_cons.mpr (Or.inr h2))
      · intro hm
        rcases hm with h1 | h1
        · exact List.mem_cons.mpr (Or.inr (ih.mpr (Or.inl h1)))
        · rcases List.mem_cons.mp h1 with h2 | h2
          · exact List.mem_cons.mpr (Or.inl h2)
          · exact List.mem_cons.mpr (Or.inr (ih.mpr (Or.inr h2)))
    · rw [stableInsert, if_neg h]
      exact List.mem_cons

theorem mem_stableSort_aux {α : Type} (le : α → α → Bool) (l : List α) :
    ∀ acc a, (a ∈ l.foldl (fun acc x => stableInsert le x acc) acc ↔ a ∈ acc ∨ a ∈ l) := by
  induction l with
  | nil => intro acc a; simp
  | cons x xs ih =>
    intro acc a
    simp only [List.foldl_cons]
    rw [ih, mem_stableInsert]
    simp only [List.mem_cons]
    tauto

theorem mem_stableSort {α : Type} (le : α → α → Bool) (l : List α) (a : α) :
    a ∈ stableSort le l ↔ a ∈ l := by
  rw [stableSort, mem_stableSort_aux]
  simp

theorem get_batting_order_subset (t : Team) :
    ∀ p ∈ get_batting_order t, p ∈ t.players := by
  intro p hp
  simp only [get_batting_order, List.mem_append] at hp
  rcases hp with ((((h | h) | h) | h) | h)
  · exact List.mem_of_mem_filter
      ((mem_stableSort _ _ _).mp ((List.take_subset _ _) h))
  · exact List.mem_of_mem_filter ((mem_stableSort _ _ _).mp h)
  · exact List.mem_of_mem_filter ((mem_stableSort _ _ _).mp h)
  · exact List.mem_of_mem_filter
      ((mem_stableSort _ _ _).mp ((List.drop_subset _ _) h))
  · exact List.mem_of_mem_filter ((mem_stableSort _ _ _).mp h)

theorem get_bowlers_subset (t : Team) :
    ∀ p ∈ get_bowlers t, p ∈ t.players := by
  intro p hp
  simp only [get_bowlers, List.mem_append] at hp
  rcases hp with h | h
  · exact List.mem_of_mem_filter ((mem_stableSort _ _ _).mp h)
  · exact List.mem_of_mem_filter ((mem_stableSort _ _ _).mp h)

theorem findPlayer_eq_some_of_mem {teamA teamB : Team} {n : String}
    (h : n ∈ (teamA.players ++ teamB.players).map Player.name) :
    ∃ p, findPlayer teamA teamB n = some p ∧ p.name = n ∧
      p ∈ teamA.players ++ teamB.players := by
  obtain ⟨p0, hp0, hname⟩ := List.mem_map.mp h
  have hsome : (List.find? (fun p => p.name = n) (teamA.players ++ teamB.players)).isSome := by
    rw [List.find?_isSome]
    exact ⟨p0, hp0, by simp [hname]⟩
  obtain ⟨p, hp⟩ := Option.isSome_iff_exists.mp hsome
  refine ⟨p, hp, ?_, List.mem_of_find?_eq_some hp⟩
  have := List.find?_some hp
  simpa using this

/-! ## Lemmas about the outcome model -/

theorem aggression_nonneg (batter : Player) (bowler : Option Player)
    (h : 0 ≤ batter.strikeRate) : 0 ≤ aggression batter bowler := by
  unfold aggression
  have h100 : (0:ℚ) ≤ batter.strikeRate / 100.0 := div_nonneg h (by norm_num)
  rcases bowler with _ | b
  · exact mul_nonneg h100 (by norm_num)
  · have hef : (0:ℚ) ≤ (if b.economyRate > 0 then b.economyRate / 6.0 else 1.0) := by
      split_ifs with hb
      · positivity
      · norm_num
    exact mul_nonneg h100 hef

theorem scoring_total_pos (a : ℚ) :
    0 < max MIN_DOT_PROBABILITY (MAX_DOT_PROBABILITY - a * 0.15) + SINGLE_PROBABILITY +
      TWO_PROBABILITY + THREE_PROBABILITY +
      min MAX_FOUR_PROBABILITY (MIN_FOUR_PROBABILITY + a * 0.08) +
      min MAX_SIX_PROBABILITY (MIN_SIX_PROBABILITY + a * 0.06) := by
  unfold MIN_DOT_PROBABILITY MAX_DOT_PROBABILITY SINGLE_PROBABILITY TWO_PROBABILITY
    THREE_PROBABILITY MIN_FOUR_PROBABILITY MAX_FOUR_PROBABILITY MIN_SIX_PROBABILITY
    MAX_SIX_PROBABILITY
  rw [max_def, min_def, min_def]
  split_ifs <;> linarith


/-! ## Claim C5 -/

/-- C5: for every batter and optional bowler, `calculate_dismissal_probability`
is the pure function `clamp(0.025 * battingFactor * bowlerFactor, 0.005, 0.08)`
with `battingFactor = 37.5 / max(battingAverage, 15.0)` and `bowlerFactor =
30.0 / max(bowlingAverage, 20.0)` when a bowler with positive bowling average
is supplied and `1.0` otherwise; in particular the result lies in
`[0.005, 0.08]`. -/
theorem C5_dismissal_probability (batter : Player) (bowler : Option Player) :
    calculate_dismissal_probability batter bowler =
      max 0.005 (min 0.08
        (0.025 * (37.5 / max batter.battingAverage 15.0) *
          (match bowler with
           | some b =>
             if b.bowlingAverage > 0 then 30.0 / max b.bowlingAverage 20.0 else 1.0
           | none => 1.0)))
    ∧ 0.005 ≤ calculate_dismissal_probability batter bowler
    ∧ calculate_dismissal_probability batter bowler ≤ 0.08 := by
  have heq : calculate_dismissal_probability batter bowler =
      max MIN_DISMISSAL_PROBABILITY (min MAX_DISMISSAL_PROBABILITY
        (BASE_DISMISSAL_PROBABILITY *
          (BATTING_AVERAGE_BASELINE / max batter.battingAverage MIN_BATTING_AVERAGE) *
          (match bowler with
           | some b =>
             if b.bowlingAverage > 0 then
               BOWLING_AVERAGE_BASELINE / max b.bowlingAverage MIN_BOWLING_AVERAGE
             else 1.0
           | none => 1.0))) := by
    rcases bowler with _ | b <;> rfl
  refine ⟨?_, ?_, ?_⟩
  · rw [heq]
    rcases bowler with _ | b <;> rfl
  · rw [heq]
    exact le_max_left _ _
  · rw [heq]
    refine max_le (by norm_num [MIN_DISMISSAL_PROBABILITY, MAX_DISMISSAL_PROBABILITY]) ?_
    exact min_le_left _ _

/-! ## Claim C6 -/

/-- C6 counterexample: for a batter with a negative strike rate (and no
bowler) the normalized four- and six- probabilities returned by
`calculate_scoring_probabilities` are negative, refuting "whose six values are
each ≥ 0" as stated for every batter. -/
theorem C6_counterexample :
    (calculate_scoring_probabilities negSRBat none).map Prod.snd =
      [2/3, 2/7, 2/21, 2/105, -1/35, -4/105] ∧ (-1/35 : ℚ) < 0 := by
  constructor
  · norm_num [calculate_scoring_probabilities, aggression, negSRBat,
      MIN_DOT_PROBABILITY, MAX_DOT_PROBABILITY, SINGLE_PROBABILITY, TWO_PROBABILITY,
      THREE_PROBABILITY, MIN_FOUR_PROBABILITY, MAX_FOUR_PROBABILITY,
      MIN_SIX_PROBABILITY, MAX_SIX_PROBABILITY, max_def, min_def]
  · norm_num

/-- C6 (amended): for every batter and optional bowler the mapping returned by
`calculate_scoring_probabilities` has keys exactly `0,1,2,3,4,6` (5 never
appears) and its six values sum to exactly 1; the values are moreover all
≥ 0 whenever the batter strike rate is ≥ 0 (without that proviso the four- and
six- values can be negative, see the counterexample). -/
theorem C6_scoring_distribution (batter : Player) (bowler : Option Player) :
    (calculate_scoring_probabilities batter bowler).map Prod.fst = [0, 1, 2, 3, 4, 6]
    ∧ ((calculate_scoring_probabilities batter bowler).map Prod.snd).sum = 1
    ∧ (0 ≤ batter.strikeRate →
        ∀ v ∈ (calculate_scoring_probabilities batter bowler).map Prod.snd, 0 ≤ v) := by
  have htot := scoring_total_pos (aggression batter bowler)
  refine ⟨rfl, ?_, ?_⟩
  · simp only [calculate_scoring_probabilities, List.map_cons, List.map_nil,
      List.sum_cons, List.sum_nil, add_zero]
    rw [div_add_div_same, div_add_div_same, div_add_div_same, div_add_div_same,
      div_add_div_same]
    rw [div_eq_one_iff_eq (ne_of_gt htot)]
    ring
  · intro hsr v hv
    have ha := aggression_nonneg batter bowler hsr
    have h008 : (0:ℚ) ≤ aggression batter bowler * 0.08 := mul_nonneg ha (by norm_num)
    have h006 : (0:ℚ) ≤ aggression batter bowler * 0.06 := mul_nonneg ha (by norm_num)
    have hT : (0:ℚ) ≤ max MIN_DOT_PROBABILITY
        (MAX_DOT_PROBABILITY - aggression batter bowler * 0.15) + SINGLE_PROBABILITY +
        TWO_PROBABILITY + THREE_PROBABILITY +
        min MAX_FOUR_PROBABILITY (MIN_FOUR_PROBABILITY + aggression batter bowler * 0.08) +
        min MAX_SIX_PROBABILITY (MIN_SIX_PROBABILITY + aggression batter bowler * 0.06) :=
      le_of_lt htot
    simp only [calculate_scoring_probabilities, List.map_cons, List.map_nil,
      List.mem_cons, List.not_mem_nil, or_false] at hv
    rcases hv with rfl | rfl | rfl | rfl | rfl | rfl
    · refine div_nonneg ?_ hT
      exact le_trans (by norm_num [MIN_DOT_PROBABILITY]) (le_max_left _ _)
    · exact div_nonneg (by norm_num [SINGLE_PROBABILITY]) hT
    · exact div_nonneg (by norm_num [TWO_PROBABILITY]) hT
    · exact div_nonneg (by norm_num [THREE_PROBABILITY]) hT
    · refine div_nonneg (le_min (by norm_num [MAX_FOUR_PROBABILITY]) ?_) hT
      have : (0:ℚ) ≤ MIN_FOUR_PROBABILITY := by norm_num [MIN_FOUR_PROBABILITY]
      linarith
    · refine div_nonneg (le_min (by norm_num [MAX_SIX_PROBABILITY]) ?_) hT
      have : (0:ℚ) ≤ MIN_SIX_PROBABILITY := by norm_num [MIN_SIX_PROBABILITY]
      linarith

/-- C6 witness: the amended statement applied to a concrete batter with
non-negative strike rate. -/
theorem C6_witness :
    (0:ℚ) ≤ batX.strikeRate ∧
    ∀ v ∈ (calculate_scoring_probabilities batX none).map Prod.snd, 0 ≤ v :=
  ⟨by norm_num [batX], (C6_scoring_distribution batX none).2.2 (by norm_num [batX])⟩


/-! ## Claim C3 -/

/-- C3: when a target `t ≥ 1` is set and the running score has reached it, the
innings loop consumes no further draw and changes nothing: the chase check is
made before each delivery, so no further deliveries, runs, wickets or balls
faced are recorded (the loop returns its state unchanged whatever random
draws remain). -/
theorem C3_target_stops_innings (maxOvers : ℕ) (t : ℤ)
    (battingOrder bowlers : List Player) (st : LoopState) (ds : List Draws)
    (h1 : 1 ≤ t) (h2 : t ≤ (st.innings.score : ℤ)) :
    innLoop maxOvers (some t) battingOrder bowlers st ds = st := by
  cases ds with
  | nil => rfl
  | cons d ds =>
    have htr : target_is_reached (some t) st.innings.score = true := by
      simp only [target_is_reached, Bool.and_eq_true, decide_eq_true_eq, ne_eq]
      exact ⟨by omega, h2⟩
    rw [innLoop, innStep]
    by_cases hga : ¬(st.innings.wickets < 10 ∧ st.innings.overs < maxOvers)
    · rw [if_pos hga]
    · rw [if_neg hga, if_pos htr]

/-- C3 witness: a state with 5 runs on the board and target 3 is returned
unchanged. -/
theorem C3_witness :
    (1:ℤ) ≤ 3 ∧ (3:ℤ) ≤ (chaseState.innings.score : ℤ) ∧
    innLoop 20 (some 3) [batX, batY] [bowlerB] chaseState [dotBall] = chaseState :=
  ⟨by norm_num, by norm_num [chaseState],
    C3_target_stops_innings 20 3 [batX, batY] [bowlerB] chaseState [dotBall]
      (by norm_num) (by norm_num [chaseState])⟩

/-! ## Claim C10 -/

theorem innStep_target_zero (maxOvers : ℕ) (battingOrder bowlers : List Player)
    (st : LoopState) (d : Draws) :
    innStep maxOvers (some 0) battingOrder bowlers st d =
    innStep maxOvers none battingOrder bowlers st d := by
  rw [innStep, innStep]
  have h : target_is_reached (some 0) st.innings.score =
      target_is_reached none st.innings.score := by
    simp [target_is_reached]
  rw [h]

/-- C10: an explicit target of 0 is falsy in the Python membership test
`if target and innings.score >= target`, so the chase cut-off never fires and
the whole innings behaves exactly as with no target: the simulation runs on
to all-out or the overs cap. -/
theorem C10_target_zero (n1 n2 : String) (battingOrder bowlers : List Player)
    (maxOvers : ℕ) (draws : List Draws) :
    simulate_innings_from n1 n2 battingOrder bowlers maxOvers (some 0) draws =
    simulate_innings_from n1 n2 battingOrder bowlers maxOvers none draws := by
  have hloop : ∀ (ds : List Draws) (st : LoopState),
      innLoop maxOvers (some 0) battingOrder bowlers st ds =
      innLoop maxOvers none battingOrder bowlers st ds := by
    intro ds
    induction ds with
    | nil => intro st; rfl
    | cons d ds ih =>
      intro st
      rw [innLoop, innLoop, innStep_target_zero]
      cases h : innStep maxOvers none battingOrder bowlers st d with
      | inl st2 => exact ih st2
      | inr stop => rfl
  unfold simulate_innings_from
  split_ifs
  · rfl
  · rfl
  · rw [hloop]

/-! ## Claim C9 -/

/-- C9: `simulate_innings` raises the roster-insufficiency `ValueError` if and
only if the batting order has fewer than 2 players or the bowler list is
empty; in that case it fails before any ball is simulated (the result does not
depend on the random draws, so no delivery is drawn and nothing is recorded),
and otherwise no error is raised (every probability computation is a total
function in the embedding). -/
theorem C9_roster_error (n1 n2 : String) (battingOrder bowlers : List Player)
    (maxOvers : ℕ) (target : Option ℤ) (draws : List Draws) :
    ((∃ e, simulate_innings_from n1 n2 battingOrder bowlers maxOvers target draws =
        .error e)
      ↔ (battingOrder.length < 2 ∨ bowlers.length < 1))
    ∧ ((battingOrder.length < 2 ∨ bowlers.length < 1) →
        simulate_innings_from n1 n2 battingOrder bowlers maxOvers target draws =
        simulate_innings_from n1 n2 battingOrder bowlers maxOvers target []) := by
  unfold simulate_innings_from
  constructor
  · constructor
    · rintro ⟨e, he⟩
      by_cases h1 : battingOrder.length < 2
      · exact Or.inl h1
      · by_cases h2 : bowlers.length < 1
        · exact Or.inr h2
        · rw [if_neg h1, if_neg h2] at he
          exact Except.noConfusion he
    · intro h
      rcases h with h | h
      · exact ⟨_, by rw [if_pos h]⟩
      · by_cases h1 : battingOrder.length < 2
        · exact ⟨_, by rw [if_pos h1]⟩
        · exact ⟨_, by rw [if_neg h1, if_pos h]⟩
  · intro h
    rcases h with h | h
    · rw [if_pos h, if_pos h]
    · by_cases h1 : battingOrder.length < 2
      · rw [if_pos h1, if_pos h1]
      · rw [if_neg h1, if_pos h, if_neg h1, if_pos h]

/-- C9 witness: a single-batter side triggers the error whatever the draws. -/
theorem C9_witness :
    (([batX] : List Player).length < 2 ∨ ([bowlerB] : List Player).length < 1)
    ∧ simulate_innings_from "T1" "T2" [batX] [bowlerB] 20 none [dotBall] =
      simulate_innings_from "T1" "T2" [batX] [bowlerB] 20 none [] :=
  ⟨Or.inl (by simp), (C9_roster_error "T1" "T2" [batX] [bowlerB] 20 none [dotBall]).2
    (Or.inl (by simp))⟩

/-! ## Claim C8 -/

theorem dictGet_ensureBowlFig (d : List (String × BowlFig)) (k : String) :
    dictGet (ensureBowlFig d k) k { overs := 0, runs := 0, wickets := 0 } =
    dictGet d k { overs := 0, runs := 0, wickets := 0 } := by
  unfold ensureBowlFig
  split_ifs with h
  · rfl
  · have hk : k ∉ keysOf d := fun hm => h ((dictContains_eq_true_iff _ _).mpr hm)
    rw [dictGet_dictSet_self, dictGet_of_not_mem _ hk]

theorem simulate_ball_extra_shape (d : Draws) (batsman bowler : Player)
    (hx : (simulate_ball d batsman bowler).is_extra = true) :
    (simulate_ball d batsman bowler).is_wicket = false ∧
    ((simulate_ball d batsman bowler).extra_type = "wide" →
      (simulate_ball d batsman bowler).runs = 1) ∧
    ((simulate_ball d batsman bowler).runs = 1 ∨
      (simulate_ball d batsman bowler).runs = 2) := by
  by_cases h1 : d.rExtra < 0.05
  · by_cases hw : d.rExtraType < 0.7
    · have heq : simulate_ball d batsman bowler =
          { runs := 1, is_wicket := false, is_extra := true, extra_type := "wide" } := by
        unfold simulate_ball
        rw [if_pos h1]
        simp [hw]
      rw [heq]
      exact ⟨rfl, fun _ => rfl, Or.inl rfl⟩
    · cases hc : d.noBallCoin
      · have heq : simulate_ball d batsman bowler =
            { runs := 1, is_wicket := false, is_extra := true, extra_type := "no-ball" } := by
          unfold simulate_ball
          rw [if_pos h1]
          simp [hw, hc]
        rw [heq]
        refine ⟨rfl, ?_, Or.inl rfl⟩
        intro hcontra
        simp at hcontra
      · have heq : simulate_ball d batsman bowler =
            { runs := 2, is_wicket := false, is_extra := true, extra_type := "no-ball" } := by
          unfold simulate_ball
          rw [if_pos h1]
          simp [hw, hc]
        rw [heq]
        refine ⟨rfl, ?_, Or.inr rfl⟩
        intro hcontra
        simp at hcontra
  · have hfalse : (simulate_ball d batsman bowler).is_extra = false := by
      unfold simulate_ball
      rw [if_neg h1]
      split_ifs <;> rfl
    rw [hfalse] at hx
    exact absurd hx (by simp)

/-- C8: a delivery whose outcome is an extra is never a wicket, scores 1 for a
wide and 1 or 2 for a no-ball, and processing it adds those runs to the score,
the extras total and the bowler conceded-runs figure only: balls-in-over,
wickets, every batter entry, the fall-of-wickets list, striker, non-striker
and the bowler rotation index are all unchanged — an extra does not consume a
ball of the over. -/
theorem C8_extra_delivery (maxOvers : ℕ) (target : Option ℤ)
    (battingOrder bowlers : List Player) (st : LoopState) (d : Draws)
    (hg : st.innings.wickets < 10 ∧ st.innings.overs < maxOvers)
    (ht : target_is_reached target st.innings.score = false)
    (hx : (simulate_ball d st.striker (currentBowler bowlers st.bowlerIndex)).is_extra
      = true) :
    (simulate_ball d st.striker (currentBowler bowlers st.bowlerIndex)).is_wicket = false
    ∧ ((simulate_ball d st.striker (currentBowler bowlers st.bowlerIndex)).extra_type
        = "wide" →
       (simulate_ball d st.striker (currentBowler bowlers st.bowlerIndex)).runs = 1)
    ∧ ((simulate_ball d st.striker (currentBowler bowlers st.bowlerIndex)).runs = 1 ∨
       (simulate_ball d st.striker (currentBowler bowlers st.bowlerIndex)).runs = 2)
    ∧ ∃ st2, innStep maxOvers target battingOrder bowlers st d = .inl st2
        ∧ st2.innings.score = st.innings.score +
            (simulate_ball d st.striker (currentBowler bowlers st.bowlerIndex)).runs
        ∧ st2.innings.extras = st.innings.extras +
            (simulate_ball d st.striker (currentBowler bowlers st.bowlerIndex)).runs
        ∧ (dictGet st2.innings.bowling_figures
            (currentBowler bowlers st.bowlerIndex).name
            { overs := 0, runs := 0, wickets := 0 }).runs =
          (dictGet st.innings.bowling_figures
            (currentBowler bowlers st.bowlerIndex).name
            { overs := 0, runs := 0, wickets := 0 }).runs +
            (simulate_ball d st.striker (currentBowler bowlers st.bowlerIndex)).runs
        ∧ st2.innings.balls = st.innings.balls
        ∧ st2.innings.wickets = st.innings.wickets
        ∧ st2.innings.batting_scores = st.innings.batting_scores
        ∧ st2.innings.batting_balls = st.innings.batting_balls
        ∧ st2.innings.fall_of_wickets = st.innings.fall_of_wickets
        ∧ st2.striker = st.striker
        ∧ st2.nonStriker = st.nonStriker
        ∧ st2.batsmenIndex = st.batsmenIndex
        ∧ st2.bowlerIndex = st.bowlerIndex := by
  obtain ⟨hw, hw1, hr12⟩ := simulate_ball_extra_shape d st.striker
    (currentBowler bowlers st.bowlerIndex) hx
  refine ⟨hw, hw1, hr12, extraPhase (currentBowler bowlers st.bowlerIndex)
    (simulate_ball d st.striker (currentBowler bowlers st.bowlerIndex)).runs st,
    ?_, ?_, ?_, ?_, ?_, ?_, ?_, ?_, ?_, ?_, ?_, ?_, ?_⟩
  · rw [innStep, if_neg (not_not_intro hg), if_neg (by simp [ht]), if_pos hx]
  · simp [extraPhase]
  · simp [extraPhase]
  · simp only [extraPhase]
    rw [show (updBowlRuns (ensureBowlFig st.innings.bowling_figures
        (currentBowler bowlers st.bowlerIndex).name)
        (currentBowler bowlers st.bowlerIndex).name
        (simulate_ball d st.striker (currentBowler bowlers st.bowlerIndex)).runs) =
      dictSet (ensureBowlFig st.innings.bowling_figures
        (currentBowler bowlers st.bowlerIndex).name)
        (currentBowler bowlers st.bowlerIndex).name
        { dictGet (ensureBowlFig st.innings.bowling_figures
            (currentBowler bowlers st.bowlerIndex).name)
            (currentBowler bowlers st.bowlerIndex).name
            { overs := 0, runs := 0, wickets := 0 } with
          runs := (dictGet (ensureBowlFig st.innings.bowling_figures
            (currentBowler bowlers st.bowlerIndex).name)
            (currentBowler bowlers st.bowlerIndex).name
            { overs := 0, runs := 0, wickets := 0 }).runs +
            (simulate_ball d st.striker (currentBowler bowlers st.bowlerIndex)).runs }
      from rfl]
    rw [dictGet_dictSet_self, dictGet_ensureBowlFig]
  · simp [extraPhase]
  · simp [extraPhase]
  · simp [extraPhase]
  · simp [extraPhase]
  · simp [extraPhase]
  · simp [extraPhase]
  · simp [extraPhase]
  · simp [extraPhase]
  · simp [extraPhase]

/-- C8 witness: a concrete wide processed from the initial state. -/
theorem C8_witness :
    ((initLoopState [batX, batY] [bowlerB]).innings.wickets < 10 ∧
      (initLoopState [batX, batY] [bowlerB]).innings.overs < 20)
    ∧ (simulate_ball wideBall (initLoopState [batX, batY] [bowlerB]).striker
        (currentBowler [bowlerB]
          (initLoopState [batX, batY] [bowlerB]).bowlerIndex)).is_wicket = false := by
  have h := C8_extra_delivery 20 none [batX, batY] [bowlerB]
    (initLoopState [batX, batY] [bowlerB]) wideBall
    (by constructor <;> norm_num [initLoopState, emptyInnings])
    (by rfl)
    (by norm_num [simulate_ball, wideBall, initLoopState, currentBowler, batX, bowlerB])
  exact ⟨by constructor <;> norm_num [initLoopState, emptyInnings], h.1⟩


/-! ## Invariant preservation for the innings loop -/

theorem currentBowler_mem (bowlers : List Player) (idx : ℕ) (h : bowlers ≠ []) :
    currentBowler bowlers idx ∈ bowlers := by
  unfold currentBowler
  have hlen : 0 < bowlers.length := List.length_pos.mpr h
  have hmod : idx % bowlers.length < bowlers.length := Nat.mod_lt _ hlen
  rw [List.getD_eq_get _ _ hmod]
  exact List.get_mem _ _ _

theorem mem_keysOf_dictSet {α : Type} {d : List (String × α)} {k x : String} {v : α}
    (h : x ∈ keysOf (dictSet d k v)) : x ∈ keysOf d ∨ x = k := by
  have := keysOf_dictSet_subset d k v h
  rcases List.mem_append.mp this with h1 | h1
  · exact Or.inl h1
  · exact Or.inr (List.mem_singleton.mp h1)

theorem mem_keysOf_ensureBowlFig {d : List (String × BowlFig)} {k x : String}
    (h : x ∈ keysOf (ensureBowlFig d k)) : x ∈ keysOf d ∨ x = k := by
  unfold ensureBowlFig at h
  split_ifs at h with hc
  · exact Or.inl h
  · exact mem_keysOf_dictSet h

theorem nodup_keysOf_ensureBowlFig {d : List (String × BowlFig)} {k : String}
    (h : (keysOf d).Nodup) : (keysOf (ensureBowlFig d k)).Nodup := by
  unfold ensureBowlFig
  split_ifs with hc
  · exact h
  · exact nodup_keysOf_dictSet _ h

theorem get_not_mem_take {α : Type} {l : List α} {i : ℕ} (hnd : l.Nodup)
    (hi : i < l.length) : l.get ⟨i, hi⟩ ∉ l.take i := by
  intro hmem
  have hnd2 : (l.take i ++ l.drop i).Nodup := by
    rw [List.take_append_drop]
    exact hnd
  have hdisj := (List.nodup_append.mp hnd2).2.2
  have hget : l.get ⟨i, hi⟩ ∈ l.drop i := by
    rw [List.drop_eq_get_cons hi]
    exact List.mem_cons_self _ _
  exact hdisj hmem hget

theorem endOfOverPhase_basicInv (maxOvers : ℕ) (bowlers : List Player) (st : LoopState)
    (hE : st.innings.wickets = st.innings.fall_of_wickets.length)
    (hF : st.innings.wickets ≤ 10)
    (hG : st.innings.overs < maxOvers)
    (hH : st.innings.balls ≤ 6) :
    basicInv maxOvers (endOfOverPhase bowlers st) := by
  unfold basicInv endOfOverPhase
  by_cases hb : st.innings.balls = 6
  · rw [if_pos hb]
    refine ⟨?_, ?_, ?_, ?_⟩
    · show st.innings.wickets = st.innings.fall_of_wickets.length
      exact hE
    · show st.innings.wickets ≤ 10
      exact hF
    · show st.innings.overs + 1 ≤ maxOvers
      omega
    · show (0:ℕ) ≤ 5
      norm_num
  · rw [if_neg hb]
    exact ⟨hE, hF, le_of_lt hG, by omega⟩

theorem innStep_basic (maxOvers : ℕ) (target : Option ℤ)
    (battingOrder bowlers : List Player) (st : LoopState) (d : Draws)
    (h : basicInv maxOvers st) :
    (∀ st2, innStep maxOvers target battingOrder bowlers st d = .inl st2 →
      basicInv maxOvers st2)
    ∧ (∀ f, innStep maxOvers target battingOrder bowlers st d = .inr f →
      basicFinal maxOvers f) := by
  obtain ⟨hE, hF, hG, hH⟩ := h
  have hfin : basicFinal maxOvers st := ⟨hE, hF, hG, by omega⟩
  rw [innStep]
  by_cases hg : ¬(st.innings.wickets < 10 ∧ st.innings.overs < maxOvers)
  · rw [if_pos hg]
    exact ⟨fun st2 heq => Sum.noConfusion heq,
      fun f heq => by injection heq with h2; rw [← h2]; exact hfin⟩
  · rw [if_neg hg]
    push_neg at hg
    by_cases htr : target_is_reached target st.innings.score = true
    · rw [if_pos htr]
      exact ⟨fun st2 heq => Sum.noConfusion heq,
        fun f heq => by injection heq with h2; rw [← h2]; exact hfin⟩
    · rw [if_neg htr]
      by_cases hex : (simulate_ball d st.striker
          (currentBowler bowlers st.bowlerIndex)).is_extra = true
      · rw [if_pos hex]
        refine ⟨fun st2 heq => ?_, fun f heq => Sum.noConfusion heq⟩
        injection heq with h2
        rw [← h2]
        exact ⟨hE, hF, hG, hH⟩
      · rw [if_neg hex]
        by_cases hwk : (simulate_ball d st.striker
            (currentBowler bowlers st.bowlerIndex)).is_wicket = true
        · rw [if_pos hwk]
          by_cases hidx : (wicketPhase (currentBowler bowlers st.bowlerIndex)
              (legalBallPhase (currentBowler bowlers st.bowlerIndex) st)).batsmenIndex <
              battingOrder.length
          · rw [if_pos hidx]
            refine ⟨fun st2 heq => ?_, fun f heq => Sum.noConfusion heq⟩
            injection heq with h2
            rw [← h2]
            apply endOfOverPhase_basicInv
            · simp only [newBatsmanPhase, wicketPhase, legalBallPhase,
                List.length_append, List.length_cons, List.length_nil]
              omega
            · simp only [newBatsmanPhase, wicketPhase, legalBallPhase]
              omega
            · simp only [newBatsmanPhase, wicketPhase, legalBallPhase]
              exact hg.2
            · simp only [newBatsmanPhase, wicketPhase, legalBallPhase]
              omega
          · rw [if_neg hidx]
            refine ⟨fun st2 heq => Sum.noConfusion heq, fun f heq => ?_⟩
            injection heq with h2
            rw [← h2]
            refine ⟨?_, ?_, ?_, ?_⟩
            · simp only [wicketPhase, legalBallPhase, List.length_append,
                List.length_cons, List.length_nil]
              omega
            · simp only [wicketPhase, legalBallPhase]
              omega
            · simp only [wicketPhase, legalBallPhase]
              exact hG
            · simp only [wicketPhase, legalBallPhase]
              omega
        · rw [if_neg hwk]
          refine ⟨fun st2 heq => ?_, fun f heq => Sum.noConfusion heq⟩
          injection heq with h2
          rw [← h2]
          unfold runsPhase
          by_cases hodd : (simulate_ball d st.striker
              (currentBowler bowlers st.bowlerIndex)).runs % 2 = 1
          · rw [if_pos hodd]
            apply endOfOverPhase_basicInv
            · simp only [legalBallPhase]
              exact hE
            · simp only [legalBallPhase]
              exact hF
            · simp only [legalBallPhase]
              exact hg.2
            · simp only [legalBallPhase]
              omega
          · rw [if_neg hodd]
            apply endOfOverPhase_basicInv
            · simp only [legalBallPhase]
              exact hE
            · simp only [legalBallPhase]
              exact hF
            · simp only [legalBallPhase]
              exact hg.2
            · simp only [legalBallPhase]
              omega


theorem innLoop_basic (maxOvers : ℕ) (target : Option ℤ)
    (battingOrder bowlers : List Player) :
    ∀ (ds : List Draws) (st : LoopState), basicInv maxOvers st →
      basicFinal maxOvers (innLoop maxOvers target battingOrder bowlers st ds) := by
  intro ds
  induction ds with
  | nil =>
    intro st h
    obtain ⟨h1, h2, h3, h4⟩ := h
    rw [innLoop]
    exact ⟨h1, h2, h3, by omega⟩
  | cons d ds ih =>
    intro st h
    rw [innLoop]
    cases heq : innStep maxOvers target battingOrder bowlers st d with
    | inl st2 => exact ih st2 ((innStep_basic maxOvers target battingOrder bowlers st d h).1 st2 heq)
    | inr f => exact (innStep_basic maxOvers target battingOrder bowlers st d h).2 f heq

theorem mem_keysOf_updBowlRuns {d : List (String × BowlFig)} {k x : String} {r : ℕ}
    (h : x ∈ keysOf (updBowlRuns d k r)) : x ∈ keysOf d ∨ x = k := by
  unfold updBowlRuns at h
  exact mem_keysOf_dictSet h

theorem mem_keysOf_updBowlWickets {d : List (String × BowlFig)} {k x : String}
    (h : x ∈ keysOf (updBowlWickets d k)) : x ∈ keysOf d ∨ x = k := by
  unfold updBowlWickets at h
  exact mem_keysOf_dictSet h

theorem mem_keysOf_updBowlOvers {d : List (String × BowlFig)} {k x : String}
    (h : x ∈ keysOf (updBowlOvers d k)) : x ∈ keysOf d ∨ x = k := by
  unfold updBowlOvers at h
  exact mem_keysOf_dictSet h

theorem nodup_keysOf_updBowlRuns {d : List (String × BowlFig)} {k : String} (r : ℕ)
    (h : (keysOf d).Nodup) : (keysOf (updBowlRuns d k r)).Nodup := by
  unfold updBowlRuns
  exact nodup_keysOf_dictSet _ h

theorem nodup_keysOf_updBowlWickets {d : List (String × BowlFig)} {k : String}
    (h : (keysOf d).Nodup) : (keysOf (updBowlWickets d k)).Nodup := by
  unfold updBowlWickets
  exact nodup_keysOf_dictSet _ h

theorem nodup_keysOf_updBowlOvers {d : List (String × BowlFig)} {k : String}
    (h : (keysOf d).Nodup) : (keysOf (updBowlOvers d k)).Nodup := by
  unfold updBowlOvers
  exact nodup_keysOf_dictSet _ h

theorem scoreInv_extraPhase (battingOrder bowlers : List Player) (st : LoopState)
    (r : ℕ) (b : Player) (hb : b ∈ bowlers)
    (h : scoreInv battingOrder bowlers st) :
    scoreInv battingOrder bowlers (extraPhase b r st) := by
  obtain ⟨hA, hB, hC, hD, hidx, hJ, hK⟩ := h
  refine ⟨?_, ?_, ?_, ?_, ?_, ?_, ?_⟩
  · simp only [extraPhase]
    omega
  · simp only [extraPhase]
    exact hB
  · simp only [extraPhase]
    exact hC
  · simp only [extraPhase]
    exact hD
  · simp only [extraPhase]
    exact hidx
  · simp only [extraPhase]
    intro x hx
    rcases mem_keysOf_updBowlRuns hx with hx2 | hx2
    · rcases mem_keysOf_ensureBowlFig hx2 with hx3 | hx3
      · exact hJ hx3
      · rw [hx3]
        exact List.mem_map_of_mem Player.name hb
    · rw [hx2]
      exact List.mem_map_of_mem Player.name hb
  · simp only [extraPhase]
    exact nodup_keysOf_updBowlRuns _ (nodup_keysOf_ensureBowlFig hK)

theorem scoreInv_legalBallPhase (battingOrder bowlers : List Player) (st : LoopState)
    (b : Player) (hb : b ∈ bowlers)
    (h : scoreInv battingOrder bowlers st) :
    scoreInv battingOrder bowlers (legalBallPhase b st) := by
  obtain ⟨hA, hB, hC, hD, hidx, hJ, hK⟩ := h
  refine ⟨?_, ?_, ?_, ?_, ?_, ?_, ?_⟩
  · simp only [legalBallPhase]
    exact hA
  · simp only [legalBallPhase]
    exact hB
  · simp only [legalBallPhase]
    exact hC
  · simp only [legalBallPhase]
    exact hD
  · simp only [legalBallPhase]
    exact hidx
  · simp only [legalBallPhase]
    intro x hx
    rcases mem_keysOf_ensureBowlFig hx with hx2 | hx2
    · exact hJ hx2
    · rw [hx2]
      exact List.mem_map_of_mem Player.name hb
  · simp only [legalBallPhase]
    exact nodup_keysOf_ensureBowlFig hK

theorem scoreInv_wicketPhase (battingOrder bowlers : List Player) (st : LoopState)
    (b : Player) (hb : b ∈ bowlers)
    (h : scoreInv battingOrder bowlers st) :
    scoreInv battingOrder bowlers (wicketPhase b st) := by
  obtain ⟨hA, hB, hC, hD, hidx, hJ, hK⟩ := h
  refine ⟨?_, ?_, ?_, ?_, ?_, ?_, ?_⟩
  · simp only [wicketPhase]
    exact hA
  · simp only [wicketPhase]
    exact hB
  · simp only [wicketPhase]
    exact hC
  · simp only [wicketPhase]
    exact hD
  · simp only [wicketPhase]
    exact hidx
  · simp only [wicketPhase]
    intro x hx
    rcases mem_keysOf_updBowlWickets hx with hx2 | hx2
    · exact hJ hx2
    · rw [hx2]
      exact List.mem_map_of_mem Player.name hb
  · simp only [wicketPhase]
    exact nodup_keysOf_updBowlWickets hK

theorem scoreInv_endOfOverPhase (battingOrder bowlers : List Player) (st : LoopState)
    (hbowl : bowlers ≠ [])
    (h : scoreInv battingOrder bowlers st) :
    scoreInv battingOrder bowlers (endOfOverPhase bowlers st) := by
  obtain ⟨hA, hB, hC, hD, hidx, hJ, hK⟩ := h
  have hbm : currentBowler bowlers st.bowlerIndex ∈ bowlers :=
    currentBowler_mem bowlers st.bowlerIndex hbowl
  unfold endOfOverPhase
  by_cases hb : st.innings.balls = 6
  · rw [if_pos hb]
    refine ⟨?_, ?_, ?_, ?_, ?_, ?_, ?_⟩
    · exact hA
    · exact hB
    · exact hD
    · exact hC
    · exact hidx
    · intro x hx
      rcases mem_keysOf_updBowlOvers hx with hx2 | hx2
      · exact hJ hx2
      · rw [hx2]
        exact List.mem_map_of_mem Player.name hbm
    · exact nodup_keysOf_updBowlOvers hK
  · rw [if_neg hb]
    exact ⟨hA, hB, hC, hD, hidx, hJ, hK⟩

theorem scoreInv_runsPhase (battingOrder bowlers : List Player) (st : LoopState)
    (b : Player) (r : ℕ) (hb : b ∈ bowlers)
    (h : scoreInv battingOrder bowlers st) :
    scoreInv battingOrder bowlers (runsPhase b r st) := by
  obtain ⟨hA, hB, hC, hD, hidx, hJ, hK⟩ := h
  have hkeys : keysOf (dictSet st.innings.batting_scores st.striker.name
      (dictGet st.innings.batting_scores st.striker.name 0 + r)) =
      keysOf st.innings.batting_scores := keysOf_dictSet_of_mem _ hC
  have hsum := sumVals_dictSet_get_add st.innings.batting_scores st.striker.name r
  have hJ2 : keysOf (updBowlRuns st.innings.bowling_figures b.name r) ⊆
      bowlers.map Player.name := by
    intro x hx
    rcases mem_keysOf_updBowlRuns hx with hx2 | hx2
    · exact hJ hx2
    · rw [hx2]
      exact List.mem_map_of_mem Player.name hb
  unfold runsPhase
  by_cases hodd : r % 2 = 1
  · rw [if_pos hodd]
    refine ⟨?_, ?_, ?_, ?_, ?_, ?_, ?_⟩
    · show st.innings.score + r = sumVals (dictSet st.innings.batting_scores
        st.striker.name (dictGet st.innings.batting_scores st.striker.name 0 + r)) +
        st.innings.extras
      rw [hsum]
      omega
    · show keysOf (dictSet st.innings.batting_scores st.striker.name
        (dictGet st.innings.batting_scores st.striker.name 0 + r)) =
        (battingOrder.take st.batsmenIndex).map Player.name
      rw [hkeys]
      exact hB
    · show st.nonStriker.name ∈ keysOf (dictSet st.innings.batting_scores
        st.striker.name (dictGet st.innings.batting_scores st.striker.name 0 + r))
      rw [hkeys]
      exact hD
    · show st.striker.name ∈ keysOf (dictSet st.innings.batting_scores
        st.striker.name (dictGet st.innings.batting_scores st.striker.name 0 + r))
      rw [hkeys]
      exact hC
    · exact hidx
    · exact hJ2
    · exact nodup_keysOf_updBowlRuns _ hK
  · rw [if_neg hodd]
    refine ⟨?_, ?_, ?_, ?_, ?_, ?_, ?_⟩
    · show st.innings.score + r = sumVals (dictSet st.innings.batting_scores
        st.striker.name (dictGet st.innings.batting_scores st.striker.name 0 + r)) +
        st.innings.extras
      rw [hsum]
      omega
    · show keysOf (dictSet st.innings.batting_scores st.striker.name
        (dictGet st.innings.batting_scores st.striker.name 0 + r)) =
        (battingOrder.take st.batsmenIndex).map Player.name
      rw [hkeys]
      exact hB
    · show st.striker.name ∈ keysOf (dictSet st.innings.batting_scores
        st.striker.name (dictGet st.innings.batting_scores st.striker.name 0 + r))
      rw [hkeys]
      exact hC
    · show st.nonStriker.name ∈ keysOf (dictSet st.innings.batting_scores
        st.striker.name (dictGet st.innings.batting_scores st.striker.name 0 + r))
      rw [hkeys]
      exact hD
    · exact hidx
    · exact hJ2
    · exact nodup_keysOf_updBowlRuns _ hK


theorem getElem_not_mem_take {α : Type} {l : List α} {i : ℕ} (hnd : l.Nodup)
    (hi : i < l.length) : l[i] ∉ l.take i := by
  intro hmem
  have hnd2 : (l.take i ++ l.drop i).Nodup := by
    rw [List.take_append_drop]
    exact hnd
  have hdisj := (List.nodup_append.mp hnd2).2.2
  have hget : l[i] ∈ l.drop i := by
    rw [List.drop_eq_getElem_cons hi]
    exact List.mem_cons_self _ _
  exact hdisj hmem hget

theorem scoreInv_newBatsmanPhase (battingOrder bowlers : List Player) (st : LoopState)
    (hnodup : (battingOrder.map Player.name).Nodup)
    (hidxlt : st.batsmenIndex < battingOrder.length)
    (h : scoreInv battingOrder bowlers st) :
    scoreInv battingOrder bowlers
      (newBatsmanPhase (battingOrder.getD st.batsmenIndex dummyPlayer) st) := by
  obtain ⟨hA, hB, hC, hD, hidx, hJ, hK⟩ := h
  have hpget : battingOrder.getD st.batsmenIndex dummyPlayer =
      battingOrder[st.batsmenIndex] :=
    List.getD_eq_getElem battingOrder dummyPlayer hidxlt
  have hmaplen : st.batsmenIndex < (battingOrder.map Player.name).length := by
    simpa using hidxlt
  have hnameget : (battingOrder.getD st.batsmenIndex dummyPlayer).name =
      (battingOrder.map Player.name)[st.batsmenIndex] := by
    rw [hpget, List.getElem_map]
  have hfresh : (battingOrder.getD st.batsmenIndex dummyPlayer).name ∉
      keysOf st.innings.batting_scores := by
    rw [hB, List.map_take, hnameget]
    exact getElem_not_mem_take hnodup hmaplen
  refine ⟨?_, ?_, ?_, ?_, ?_, ?_, ?_⟩
  · simp only [newBatsmanPhase]
    rw [sumVals_dictSet_zero_of_not_mem hfresh]
    exact hA
  · simp only [newBatsmanPhase]
    rw [keysOf_dictSet_of_not_mem _ hfresh, hB]
    rw [List.map_take, List.map_take, hnameget]
    exact List.take_concat_get' _ _ hmaplen
  · simp only [newBatsmanPhase]
    rw [keysOf_dictSet_of_not_mem _ hfresh]
    exact List.mem_append.mpr (Or.inr (List.mem_singleton.mpr rfl))
  · simp only [newBatsmanPhase]
    rw [keysOf_dictSet_of_not_mem _ hfresh]
    exact List.mem_append.mpr (Or.inl hD)
  · simp only [newBatsmanPhase]
    omega
  · simp only [newBatsmanPhase]
    exact hJ
  · simp only [newBatsmanPhase]
    exact hK

theorem innStep_score (maxOvers : ℕ) (target : Option ℤ)
    (battingOrder bowlers : List Player) (st : LoopState) (d : Draws)
    (hnodup : (battingOrder.map Player.name).Nodup)
    (hbowl : bowlers ≠ [])
    (h : scoreInv battingOrder bowlers st) :
    (∀ st2, innStep maxOvers target battingOrder bowlers st d = .inl st2 →
      scoreInv battingOrder bowlers st2)
    ∧ (∀ f, innStep maxOvers target battingOrder bowlers st d = .inr f →
      scoreInv battingOrder bowlers f) := by
  have hbm : currentBowler bowlers st.bowlerIndex ∈ bowlers :=
    currentBowler_mem bowlers st.bowlerIndex hbowl
  rw [innStep]
  by_cases hg : ¬(st.innings.wickets < 10 ∧ st.innings.overs < maxOvers)
  · rw [if_pos hg]
    exact ⟨fun st2 heq => Sum.noConfusion heq,
      fun f heq => by injection heq with h2; rw [← h2]; exact h⟩
  · rw [if_neg hg]
    by_cases htr : target_is_reached target st.innings.score = true
    · rw [if_pos htr]
      exact ⟨fun st2 heq => Sum.noConfusion heq,
        fun f heq => by injection heq with h2; rw [← h2]; exact h⟩
    · rw [if_neg htr]
      by_cases hex : (simulate_ball d st.striker
          (currentBowler bowlers st.bowlerIndex)).is_extra = true
      · rw [if_pos hex]
        refine ⟨fun st2 heq => ?_, fun f heq => Sum.noConfusion heq⟩
        injection heq with h2
        rw [← h2]
        exact scoreInv_extraPhase battingOrder bowlers st _ _ hbm h
      · rw [if_neg hex]
        have hst1 : scoreInv battingOrder bowlers
            (legalBallPhase (currentBowler bowlers st.bowlerIndex) st) :=
          scoreInv_legalBallPhase battingOrder bowlers st _ hbm h
        by_cases hwk : (simulate_ball d st.striker
            (currentBowler bowlers st.bowlerIndex)).is_wicket = true
        · rw [if_pos hwk]
          have hst2 : scoreInv battingOrder bowlers
              (wicketPhase (currentBowler bowlers st.bowlerIndex)
                (legalBallPhase (currentBowler bowlers st.bowlerIndex) st)) :=
            scoreInv_wicketPhase battingOrder bowlers _ _ hbm hst1
          by_cases hidx : (wicketPhase (currentBowler bowlers st.bowlerIndex)
              (legalBallPhase (currentBowler bowlers st.bowlerIndex) st)).batsmenIndex <
              battingOrder.length
          · rw [if_pos hidx]
            refine ⟨fun st2 heq => ?_, fun f heq => Sum.noConfusion heq⟩
            injection heq with h3
            rw [← h3]
            exact scoreInv_endOfOverPhase battingOrder bowlers _ hbowl
              (scoreInv_newBatsmanPhase battingOrder bowlers _ hnodup hidx hst2)
          · rw [if_neg hidx]
            refine ⟨fun st2 heq => Sum.noConfusion heq, fun f heq => ?_⟩
            injection heq with h3
            rw [← h3]
            exact hst2
        · rw [if_neg hwk]
          refine ⟨fun st2 heq => ?_, fun f heq => Sum.noConfusion heq⟩
          injection heq with h3
          rw [← h3]
          exact scoreInv_endOfOverPhase battingOrder bowlers _ hbowl
            (scoreInv_runsPhase battingOrder bowlers _ _ _ hbm hst1)

theorem innLoop_score (maxOvers : ℕ) (target : Option ℤ)
    (battingOrder bowlers : List Player)
    (hnodup : (battingOrder.map Player.name).Nodup)
    (hbowl : bowlers ≠ []) :
    ∀ (ds : List Draws) (st : LoopState), scoreInv battingOrder bowlers st →
      scoreInv battingOrder bowlers (innLoop maxOvers target battingOrder bowlers st ds) := by
  intro ds
  induction ds with
  | nil =>
    intro st h
    rw [innLoop]
    exact h
  | cons d ds ih =>
    intro st h
    rw [innLoop]
    cases heq : innStep maxOvers target battingOrder bowlers st d with
    | inl st2 =>
      exact ih st2
        ((innStep_score maxOvers target battingOrder bowlers st d hnodup hbowl h).1 st2 heq)
    | inr f =>
      exact (innStep_score maxOvers target battingOrder bowlers st d hnodup hbowl h).2 f heq

theorem scoreInv_init (battingOrder bowlers : List Player)
    (hnodup : (battingOrder.map Player.name).Nodup)
    (hlen : 2 ≤ battingOrder.length) :
    scoreInv battingOrder bowlers (initLoopState battingOrder bowlers) := by
  rcases battingOrder with _ | ⟨p0, _ | ⟨p1, rest⟩⟩
  · simp at hlen
  · simp at hlen
  · have hneq : p0.name ≠ p1.name := by
      have h3 := hnodup
      simp only [List.map_cons, List.nodup_cons, List.mem_cons] at h3
      exact fun he => (h3.1 (Or.inl he)).elim
    have hdict : dictSet (dictSet ([] : List (String × ℕ))
        ((p0 :: p1 :: rest).getD 0 dummyPlayer).name 0)
        ((p0 :: p1 :: rest).getD 1 dummyPlayer).name 0 =
        [(p0.name, 0), (p1.name, 0)] := by
      rw [show ((p0 :: p1 :: rest).getD 0 dummyPlayer) = p0 from rfl,
        show ((p0 :: p1 :: rest).getD 1 dummyPlayer) = p1 from rfl]
      rw [show dictSet ([] : List (String × ℕ)) p0.name 0 = [(p0.name, 0)] from rfl]
      rw [dictSet, if_neg hneq]
      rfl
    unfold scoreInv initLoopState
    refine ⟨?_, ?_, ?_, ?_, ?_, ?_, ?_⟩
    · show (0:ℕ) = sumVals (dictSet (dictSet [] _ 0) _ 0) + 0
      rw [hdict]
      rfl
    · show keysOf (dictSet (dictSet [] _ 0) _ 0) = _
      rw [hdict]
      rfl
    · show ((p0 :: p1 :: rest).getD 0 dummyPlayer).name ∈
        keysOf (dictSet (dictSet [] _ 0) _ 0)
      rw [hdict]
      simp [keysOf]
    · show ((p0 :: p1 :: rest).getD 1 dummyPlayer).name ∈
        keysOf (dictSet (dictSet [] _ 0) _ 0)
      rw [hdict]
      simp [keysOf]
    · show (2:ℕ) ≤ (p0 :: p1 :: rest).length
      simpa using hlen
    · show keysOf ([] : List (String × BowlFig)) ⊆ bowlers.map Player.name
      simp [keysOf]
    · show (keysOf ([] : List (String × BowlFig))).Nodup
      simp [keysOf]


/-! ## Claim C1 -/

/-- C1 counterexample: with a batting order whose first and third batters share
the name `"X"`, the incoming batsman resets the shared `batting_scores` entry
to 0, so the completed innings has `score = 4` but
`sum(batting_scores) + extras = 0`, refuting the claimed invariant for an
arbitrary batting order of at least 2 batters. -/
theorem C1_counterexample :
    simulate_innings_from "T1" "T2" [batX, batY, batX2] [bowlerB] 20 none
      [fourBall, wicketBall, wicketBall] =
    .ok { score := 4, wickets := 2, overs := 0, balls := 3, extras := 0,
          batting_scores := [("X", 0), ("Y", 0)],
          batting_balls := [("X", 1), ("Y", 0)],
          bowling_figures := [("B", { overs := 0, runs := 4, wickets := 2 })],
          fall_of_wickets := [(4, 1, "X"), (4, 2, "X")] }
    ∧ (4:ℕ) ≠ sumVals [("X", 0), ("Y", 0)] + 0 := by
  constructor
  · norm_num [simulate_innings_from, innLoop, innStep, initLoopState, endOfOverPhase,
      extraPhase, legalBallPhase, wicketPhase, newBatsmanPhase, runsPhase,
      simulate_ball, calculate_dismissal_probability, calculate_scoring_probabilities,
      aggression, pick_runs, target_is_reached, currentBowler, dummyPlayer,
      ensureBowlFig, updBowlRuns, updBowlWickets, updBowlOvers,
      dictGet, dictSet, dictContains, emptyInnings,
      BASE_DISMISSAL_PROBABILITY, MIN_DISMISSAL_PROBABILITY, MAX_DISMISSAL_PROBABILITY,
      BATTING_AVERAGE_BASELINE, MIN_BATTING_AVERAGE, BOWLING_AVERAGE_BASELINE,
      MIN_BOWLING_AVERAGE, MIN_DOT_PROBABILITY, MAX_DOT_PROBABILITY,
      SINGLE_PROBABILITY, TWO_PROBABILITY, THREE_PROBABILITY, MIN_FOUR_PROBABILITY,
      MAX_FOUR_PROBABILITY, MIN_SIX_PROBABILITY, MAX_SIX_PROBABILITY,
      batX, batY, batX2, bowlerB, dotBall, fourBall, wicketBall, max_def, min_def]
  · simp [sumVals]

/-- C1 (amended): every innings produced by `simulate_innings` satisfies
`wickets = len(fall_of_wickets)`, `wickets ≤ 10` and `overs ≤ maxOvers`, and
satisfies `score = sum(batting_scores) + extras` provided the names in the
batting order are pairwise distinct (the name-keyed `batting_scores` dict is
reset when a batsman whose name collides with an earlier one comes in, which
breaks the score equation — see the counterexample). -/
theorem C1_innings_invariants (n1 n2 : String) (battingOrder bowlers : List Player)
    (maxOvers : ℕ) (target : Option ℤ) (draws : List Draws) (i : InningsData)
    (hok : simulate_innings_from n1 n2 battingOrder bowlers maxOvers target draws =
      .ok i) :
    i.wickets = i.fall_of_wickets.length ∧ i.wickets ≤ 10 ∧ i.overs ≤ maxOvers
    ∧ ((battingOrder.map Player.name).Nodup →
        i.score = sumVals i.batting_scores + i.extras) := by
  unfold simulate_innings_from at hok
  by_cases h1 : battingOrder.length < 2
  · rw [if_pos h1] at hok
    exact Except.noConfusion hok
  rw [if_neg h1] at hok
  by_cases h2 : bowlers.length < 1
  · rw [if_pos h2] at hok
    exact Except.noConfusion hok
  rw [if_neg h2] at hok
  injection hok with hok
  have hinit : basicInv maxOvers (initLoopState battingOrder bowlers) := by
    refine ⟨rfl, ?_, ?_, ?_⟩
    · show (0:ℕ) ≤ 10
      norm_num
    · show (0:ℕ) ≤ maxOvers
      exact Nat.zero_le _
    · show (0:ℕ) ≤ 5
      norm_num
  obtain ⟨e1, e2, e3, e4⟩ :=
    innLoop_basic maxOvers target battingOrder bowlers draws _ hinit
  rw [hok] at e1 e2 e3
  refine ⟨e1, e2, e3, ?_⟩
  intro hnodup
  have hbowl : bowlers ≠ [] := by
    intro hnil
    rw [hnil] at h2
    simp at h2
  obtain ⟨hA, _⟩ := innLoop_score maxOvers target battingOrder bowlers hnodup hbowl
    draws _ (scoreInv_init battingOrder bowlers hnodup (by omega))
  rw [hok] at hA
  exact hA

/-- C1 witness: a two-batter innings ending all out on the first ball
satisfies all four invariants. -/
theorem C1_witness :
    simulate_innings_from "T1" "T2" [batX, batY] [bowlerB] 20 none [wicketBall] =
    .ok { score := 0, wickets := 1, overs := 0, balls := 1, extras := 0,
          batting_scores := [("X", 0), ("Y", 0)],
          batting_balls := [("X", 1), ("Y", 0)],
          bowling_figures := [("B", { overs := 0, runs := 0, wickets := 1 })],
          fall_of_wickets := [(0, 1, "X")] }
    ∧ (1:ℕ) = [(0, 1, "X")].length ∧ (1:ℕ) ≤ 10 ∧ (0:ℕ) ≤ 20
    ∧ (0:ℕ) = sumVals [("X", 0), ("Y", 0)] + 0 := by
  have heq : simulate_innings_from "T1" "T2" [batX, batY] [bowlerB] 20 none [wicketBall] =
      .ok { score := 0, wickets := 1, overs := 0, balls := 1, extras := 0,
            batting_scores := [("X", 0), ("Y", 0)],
            batting_balls := [("X", 1), ("Y", 0)],
            bowling_figures := [("B", { overs := 0, runs := 0, wickets := 1 })],
            fall_of_wickets := [(0, 1, "X")] } := by
    norm_num [simulate_innings_from, innLoop, innStep, initLoopState, endOfOverPhase,
      extraPhase, legalBallPhase, wicketPhase, newBatsmanPhase, runsPhase,
      simulate_ball, calculate_dismissal_probability, calculate_scoring_probabilities,
      aggression, pick_runs, target_is_reached, currentBowler, dummyPlayer,
      ensureBowlFig, updBowlRuns, updBowlWickets, updBowlOvers,
      dictGet, dictSet, dictContains, emptyInnings,
      BASE_DISMISSAL_PROBABILITY, MIN_DISMISSAL_PROBABILITY, MAX_DISMISSAL_PROBABILITY,
      BATTING_AVERAGE_BASELINE, MIN_BATTING_AVERAGE, BOWLING_AVERAGE_BASELINE,
      MIN_BOWLING_AVERAGE, MIN_DOT_PROBABILITY, MAX_DOT_PROBABILITY,
      SINGLE_PROBABILITY, TWO_PROBABILITY, THREE_PROBABILITY, MIN_FOUR_PROBABILITY,
      MAX_FOUR_PROBABILITY, MIN_SIX_PROBABILITY, MAX_SIX_PROBABILITY,
      batX, batY, batX2, bowlerB, dotBall, fourBall, wicketBall, max_def, min_def]
    all_goals decide
  have h := C1_innings_invariants "T1" "T2" [batX, batY] [bowlerB] 20 none
    [wicketBall] _ heq
  exact ⟨heq, h.1, h.2.1, h.2.2.1,
    h.2.2.2 (by decide)⟩

/-! ## Claim C7 -/

/-- C7 counterexample: an innings that ends all out on the sixth legal ball of
an over is returned frozen with `balls = 6`: the all-out `break` skips the
end-of-over reset, so the balls-in-current-over field of the frozen state is
not in the claimed range `0..5`. -/
theorem C7_counterexample :
    simulate_innings_from "T1" "T2" [batX, batY] [bowlerB] 20 none
      [dotBall, dotBall, dotBall, dotBall, dotBall, wicketBall] =
    .ok { score := 0, wickets := 1, overs := 0, balls := 6, extras := 0,
          batting_scores := [("X", 0), ("Y", 0)],
          batting_balls := [("X", 6), ("Y", 0)],
          bowling_figures := [("B", { overs := 0, runs := 0, wickets := 1 })],
          fall_of_wickets := [(0, 1, "X")] }
    ∧ ¬((6:ℕ) ≤ 5) := by
  constructor
  · norm_num [simulate_innings_from, innLoop, innStep, initLoopState, endOfOverPhase,
      extraPhase, legalBallPhase, wicketPhase, newBatsmanPhase, runsPhase,
      simulate_ball, calculate_dismissal_probability, calculate_scoring_probabilities,
      aggression, pick_runs, target_is_reached, currentBowler, dummyPlayer,
      ensureBowlFig, updBowlRuns, updBowlWickets, updBowlOvers,
      dictGet, dictSet, dictContains, emptyInnings,
      BASE_DISMISSAL_PROBABILITY, MIN_DISMISSAL_PROBABILITY, MAX_DISMISSAL_PROBABILITY,
      BATTING_AVERAGE_BASELINE, MIN_BATTING_AVERAGE, BOWLING_AVERAGE_BASELINE,
      MIN_BOWLING_AVERAGE, MIN_DOT_PROBABILITY, MAX_DOT_PROBABILITY,
      SINGLE_PROBABILITY, TWO_PROBABILITY, THREE_PROBABILITY, MIN_FOUR_PROBABILITY,
      MAX_FOUR_PROBABILITY, MIN_SIX_PROBABILITY, MAX_SIX_PROBABILITY,
      batX, batY, batX2, bowlerB, dotBall, fourBall, wicketBall, max_def, min_def]
  · norm_num

/-- C7 (amended): the balls-in-current-over field lies in `0..5` (it is a `ℕ`,
so `0 ≤ balls` is inherent) at every state from which the loop attempts the
next delivery, and the frozen state returned by `simulate_innings` has
`balls ≤ 6`; the value 6 is reachable only through the all-out `break`, which
skips the end-of-over reset (see the counterexample). -/
theorem C7_balls_range (maxOvers : ℕ) (target : Option ℤ)
    (battingOrder bowlers : List Player) :
    (∀ (st : LoopState) (d : Draws) (st2 : LoopState), basicInv maxOvers st →
        innStep maxOvers target battingOrder bowlers st d = .inl st2 →
        st2.innings.balls ≤ 5)
    ∧ (∀ (st : LoopState) (d : Draws) (f : LoopState), basicInv maxOvers st →
        innStep maxOvers target battingOrder bowlers st d = .inr f →
        f.innings.balls ≤ 6)
    ∧ (∀ (n1 n2 : String) (draws : List Draws) (i : InningsData),
        simulate_innings_from n1 n2 battingOrder bowlers maxOvers target draws = .ok i →
        i.balls ≤ 6) := by
  refine ⟨?_, ?_, ?_⟩
  · intro st d st2 h heq
    exact ((innStep_basic maxOvers target battingOrder bowlers st d h).1 st2 heq).2.2.2
  · intro st d f h heq
    exact ((innStep_basic maxOvers target battingOrder bowlers st d h).2 f heq).2.2.2
  · intro n1 n2 draws i hok
    unfold simulate_innings_from at hok
    by_cases h1 : battingOrder.length < 2
    · rw [if_pos h1] at hok
      exact Except.noConfusion hok
    rw [if_neg h1] at hok
    by_cases h2 : bowlers.length < 1
    · rw [if_pos h2] at hok
      exact Except.noConfusion hok
    rw [if_neg h2] at hok
    injection hok with hok
    have hinit : basicInv maxOvers (initLoopState battingOrder bowlers) := by
      refine ⟨rfl, ?_, ?_, ?_⟩
      · show (0:ℕ) ≤ 10
        norm_num
      · show (0:ℕ) ≤ maxOvers
        exact Nat.zero_le _
      · show (0:ℕ) ≤ 5
        norm_num
    obtain ⟨_, _, _, e4⟩ :=
      innLoop_basic maxOvers target battingOrder bowlers draws _ hinit
    rw [hok] at e4
    exact e4

/-- C7 witness: a one-ball innings satisfies the amended bound. -/
theorem C7_witness :
    simulate_innings_from "T1" "T2" [batX, batY] [bowlerB] 20 none [dotBall] =
    .ok { score := 0, wickets := 0, overs := 0, balls := 1, extras := 0,
          batting_scores := [("X", 0), ("Y", 0)],
          batting_balls := [("X", 1), ("Y", 0)],
          bowling_figures := [("B", { overs := 0, runs := 0, wickets := 0 })],
          fall_of_wickets := [] }
    ∧ (1:ℕ) ≤ 6 := by
  have heq : simulate_innings_from "T1" "T2" [batX, batY] [bowlerB] 20 none [dotBall] =
      .ok { score := 0, wickets := 0, overs := 0, balls := 1, extras := 0,
            batting_scores := [("X", 0), ("Y", 0)],
            batting_balls := [("X", 1), ("Y", 0)],
            bowling_figures := [("B", { overs := 0, runs := 0, wickets := 0 })],
            fall_of_wickets := [] } := by
    norm_num [simulate_innings_from, innLoop, innStep, initLoopState, endOfOverPhase,
      extraPhase, legalBallPhase, wicketPhase, newBatsmanPhase, runsPhase,
      simulate_ball, calculate_dismissal_probability, calculate_scoring_probabilities,
      aggression, pick_runs, target_is_reached, currentBowler, dummyPlayer,
      ensureBowlFig, updBowlRuns, updBowlWickets, updBowlOvers,
      dictGet, dictSet, dictContains, emptyInnings,
      BASE_DISMISSAL_PROBABILITY, MIN_DISMISSAL_PROBABILITY, MAX_DISMISSAL_PROBABILITY,
      BATTING_AVERAGE_BASELINE, MIN_BATTING_AVERAGE, BOWLING_AVERAGE_BASELINE,
      MIN_BOWLING_AVERAGE, MIN_DOT_PROBABILITY, MAX_DOT_PROBABILITY,
      SINGLE_PROBABILITY, TWO_PROBABILITY, THREE_PROBABILITY, MIN_FOUR_PROBABILITY,
      MAX_FOUR_PROBABILITY, MIN_SIX_PROBABILITY, MAX_SIX_PROBABILITY,
      batX, batY, batX2, bowlerB, dotBall, fourBall, wicketBall, max_def, min_def]
  exact ⟨heq, (C7_balls_range 20 none [batX, batY] [bowlerB]).2.2 "T1" "T2"
    [dotBall] _ heq⟩


/-! ## Claim C2 -/

theorem simulate_match_ok_elim (teamA teamB : Team) (fmt : MatchFormat)
    (tossCoin : Bool) (electDraw : ℚ) (d1 d2 : List Draws) (m : MatchResult)
    (hok : simulate_match teamA teamB fmt tossCoin electDraw d1 d2 = .ok m) :
    ∃ i1 i2,
      simulate_innings (first_batting_team teamA teamB tossCoin electDraw)
          (first_bowling_team teamA teamB tossCoin electDraw)
          (get_max_overs fmt) none d1 = .ok i1
      ∧ simulate_innings (first_bowling_team teamA teamB tossCoin electDraw)
          (first_batting_team teamA teamB tossCoin electDraw)
          (get_max_overs fmt) (some ((i1.score : ℤ) + 1)) d2 = .ok i2
      ∧ m.innings1 = i1 ∧ m.innings2 = i2
      ∧ m.player_of_match = select_player_of_match teamA teamB i1 i2
      ∧ m.winner = (if i2.score > i1.score
            then some (first_bowling_team teamA teamB tossCoin electDraw)
            else if i2.score < i1.score
            then some (first_batting_team teamA teamB tossCoin electDraw)
            else none)
      ∧ m.result_text = (if i2.score > i1.score
            then (first_bowling_team teamA teamB tossCoin electDraw).name ++ " won by " ++
              toString (10 - i2.wickets) ++ " wickets"
            else if i2.score < i1.score
            then (first_batting_team teamA teamB tossCoin electDraw).name ++ " won by " ++
              toString (i1.score - i2.score) ++ " runs"
            else "Match tied") := by
  simp only [simulate_match] at hok
  split at hok
  · exact Except.noConfusion hok
  · rename_i i1 h1
    split at hok
    · exact Except.noConfusion hok
    · rename_i i2 h2
      injection hok with hok
      refine ⟨i1, i2, h1, h2, ?_, ?_, ?_, ?_, ?_⟩ <;> rw [← hok]

/-- C2: on every completed match, if the second-innings score strictly exceeds
the first-innings score the chasing (second-batting) team wins and the result
text reads "<chaser> won by <10 − wickets> wickets"; if it is strictly less
the first-batting team wins by the run margin with the corresponding text; if
equal the winner is null and the match is tied; consequently the winner is
always one of the two competing teams or null, never a third party. -/
theorem C2_result_determination (teamA teamB : Team) (fmt : MatchFormat)
    (tossCoin : Bool) (electDraw : ℚ) (d1 d2 : List Draws) (m : MatchResult)
    (hok : simulate_match teamA teamB fmt tossCoin electDraw d1 d2 = .ok m) :
    (m.innings2.score > m.innings1.score →
      m.winner = some (first_bowling_team teamA teamB tossCoin electDraw) ∧
      m.result_text = (first_bowling_team teamA teamB tossCoin electDraw).name ++
        " won by " ++ toString (10 - m.innings2.wickets) ++ " wickets")
    ∧ (m.innings2.score < m.innings1.score →
      m.winner = some (first_batting_team teamA teamB tossCoin electDraw) ∧
      m.result_text = (first_batting_team teamA teamB tossCoin electDraw).name ++
        " won by " ++ toString (m.innings1.score - m.innings2.score) ++ " runs")
    ∧ (m.innings2.score = m.innings1.score →
      m.winner = none ∧ m.result_text = "Match tied")
    ∧ (m.winner = none ∨ m.winner = some teamA ∨ m.winner = some teamB) := by
  obtain ⟨i1, i2, h1, h2, hi1, hi2, hpom, hw, ht⟩ :=
    simulate_match_ok_elim teamA teamB fmt tossCoin electDraw d1 d2 m hok
  subst hi1
  subst hi2
  have hfb : first_batting_team teamA teamB tossCoin electDraw = teamA ∨
      first_batting_team teamA teamB tossCoin electDraw = teamB := by
    unfold first_batting_team toss_winner_team elected_choice
    split_ifs <;> simp
  have hfw : first_bowling_team teamA teamB tossCoin electDraw = teamA ∨
      first_bowling_team teamA teamB tossCoin electDraw = teamB := by
    unfold first_bowling_team toss_winner_team elected_choice
    split_ifs <;> simp
  refine ⟨?_, ?_, ?_, ?_⟩
  · intro hgt
    exact ⟨by rw [hw, if_pos hgt], by rw [ht, if_pos hgt]⟩
  · intro hlt
    have hngt : ¬(m.innings2.score > m.innings1.score) := by omega
    exact ⟨by rw [hw, if_neg hngt, if_pos hlt], by rw [ht, if_neg hngt, if_pos hlt]⟩
  · intro hequ
    have hngt : ¬(m.innings2.score > m.innings1.score) := by omega
    have hnlt : ¬(m.innings2.score < m.innings1.score) := by omega
    exact ⟨by rw [hw, if_neg hngt, if_neg hnlt], by rw [ht, if_neg hngt, if_neg hnlt]⟩
  · rw [hw]
    by_cases hgt : m.innings2.score > m.innings1.score
    · rw [if_pos hgt]
      rcases hfw with h | h
      · exact Or.inr (Or.inl (by rw [h]))
      · exact Or.inr (Or.inr (by rw [h]))
    · rw [if_neg hgt]
      by_cases hlt : m.innings2.score < m.innings1.score
      · rw [if_pos hlt]
        rcases hfb with h | h
        · exact Or.inr (Or.inl (by rw [h]))
        · exact Or.inr (Or.inr (by rw [h]))
      · rw [if_neg hlt]
        exact Or.inl rfl


set_option maxHeartbeats 2000000 in
/-- C2 witness: a concrete completed match in which the chasing side wins by
ten wickets. -/
theorem C2_witness :
    simulate_match teamP teamQ .T20 true 0.5 [wicketBall, wicketBall] [singleBall] =
      .ok c2MatchResult
    ∧ c2MatchResult.innings2.score > c2MatchResult.innings1.score
    ∧ c2MatchResult.winner = some (first_bowling_team teamP teamQ true 0.5) := by
  have heq : simulate_match teamP teamQ .T20 true 0.5
      [wicketBall, wicketBall] [singleBall] = .ok c2MatchResult := by
    norm_num +decide [simulate_match, simulate_innings, get_batting_order, get_bowlers,
      sortByBattingAvgDesc, bowlSortKey, stableSort, stableInsert,
      first_batting_team, first_bowling_team, toss_winner_team, elected_choice,
      get_max_overs, select_player_of_match, dictMerge, pickMax, findPlayer,
      teamP, teamQ, pBat1, pBat2, pBowl, qBat1, qBat2, qBowl, singleBall,
      c2MatchResult,
      simulate_innings_from, innLoop, innStep, initLoopState, endOfOverPhase,
      extraPhase, legalBallPhase, wicketPhase, newBatsmanPhase, runsPhase,
      simulate_ball, calculate_dismissal_probability, calculate_scoring_probabilities,
      aggression, pick_runs, target_is_reached, currentBowler, dummyPlayer,
      ensureBowlFig, updBowlRuns, updBowlWickets, updBowlOvers,
      dictGet, dictSet, dictContains, emptyInnings,
      BASE_DISMISSAL_PROBABILITY, MIN_DISMISSAL_PROBABILITY, MAX_DISMISSAL_PROBABILITY,
      BATTING_AVERAGE_BASELINE, MIN_BATTING_AVERAGE, BOWLING_AVERAGE_BASELINE,
      MIN_BOWLING_AVERAGE, MIN_DOT_PROBABILITY, MAX_DOT_PROBABILITY,
      SINGLE_PROBABILITY, TWO_PROBABILITY, THREE_PROBABILITY, MIN_FOUR_PROBABILITY,
      MAX_FOUR_PROBABILITY, MIN_SIX_PROBABILITY, MAX_SIX_PROBABILITY,
      wicketBall, max_def, min_def]
  refine ⟨heq, by norm_num [c2MatchResult], ?_⟩
  exact ((C2_result_determination teamP teamQ .T20 true 0.5
    [wicketBall, wicketBall] [singleBall] _ heq).1 (by norm_num [c2MatchResult])).1


/-! ## Key-tracking invariant preservation -/

theorem keysInv_extraPhase (battingOrder bowlers : List Player) (st : LoopState)
    (r : ℕ) (b : Player) (hb : b ∈ bowlers)
    (h : keysInv battingOrder bowlers st) :
    keysInv battingOrder bowlers (extraPhase b r st) := by
  obtain ⟨h1, h2, h3, h4, h5, h6⟩ := h
  refine ⟨?_, ?_, ?_, ?_, ?_, ?_⟩
  · simp only [extraPhase]
    exact h1
  · simp only [extraPhase]
    exact h2
  · simp only [extraPhase]
    intro x hx
    rcases mem_keysOf_updBowlRuns hx with hx2 | hx2
    · rcases mem_keysOf_ensureBowlFig hx2 with hx3 | hx3
      · exact h3 hx3
      · rw [hx3]
        exact List.mem_map_of_mem Player.name hb
    · rw [hx2]
      exact List.mem_map_of_mem Player.name hb
  · simp only [extraPhase]
    exact nodup_keysOf_updBowlRuns _ (nodup_keysOf_ensureBowlFig h4)
  · simp only [extraPhase]
    exact h5
  · simp only [extraPhase]
    exact h6

theorem keysInv_legalBallPhase (battingOrder bowlers : List Player) (st : LoopState)
    (b : Player) (hb : b ∈ bowlers)
    (h : keysInv battingOrder bowlers st) :
    keysInv battingOrder bowlers (legalBallPhase b st) := by
  obtain ⟨h1, h2, h3, h4, h5, h6⟩ := h
  refine ⟨?_, ?_, ?_, ?_, ?_, ?_⟩
  · simp only [legalBallPhase]
    exact h1
  · simp only [legalBallPhase]
    exact h2
  · simp only [legalBallPhase]
    intro x hx
    rcases mem_keysOf_ensureBowlFig hx with hx2 | hx2
    · exact h3 hx2
    · rw [hx2]
      exact List.mem_map_of_mem Player.name hb
  · simp only [legalBallPhase]
    exact nodup_keysOf_ensureBowlFig h4
  · simp only [legalBallPhase]
    exact h5
  · simp only [legalBallPhase]
    exact h6

theorem keysInv_wicketPhase (battingOrder bowlers : List Player) (st : LoopState)
    (b : Player) (hb : b ∈ bowlers)
    (h : keysInv battingOrder bowlers st) :
    keysInv battingOrder bowlers (wicketPhase b st) := by
  obtain ⟨h1, h2, h3, h4, h5, h6⟩ := h
  refine ⟨?_, ?_, ?_, ?_, ?_, ?_⟩
  · simp only [wicketPhase]
    exact h1
  · simp only [wicketPhase]
    exact h2
  · simp only [wicketPhase]
    intro x hx
    rcases mem_keysOf_updBowlWickets hx with hx2 | hx2
    · exact h3 hx2
    · rw [hx2]
      exact List.mem_map_of_mem Player.name hb
  · simp only [wicketPhase]
    exact nodup_keysOf_updBowlWickets h4
  · simp only [wicketPhase]
    exact h5
  · simp only [wicketPhase]
    exact h6

theorem keysInv_newBatsmanPhase (battingOrder bowlers : List Player) (st : LoopState)
    (hidxlt : st.batsmenIndex < battingOrder.length)
    (h : keysInv battingOrder bowlers st) :
    keysInv battingOrder bowlers
      (newBatsmanPhase (battingOrder.getD st.batsmenIndex dummyPlayer) st) := by
  obtain ⟨h1, h2, h3, h4, h5, h6⟩ := h
  have hpname : (battingOrder.getD st.batsmenIndex dummyPlayer).name ∈
      battingOrder.map Player.name := by
    rw [List.getD_eq_getElem battingOrder dummyPlayer hidxlt]
    exact List.mem_map_of_mem Player.name (List.getElem_mem hidxlt)
  refine ⟨?_, ?_, ?_, ?_, ?_, ?_⟩
  · simp only [newBatsmanPhase]
    intro x hx
    rcases mem_keysOf_dictSet hx with hx2 | hx2
    · exact h1 hx2
    · rw [hx2]
      exact hpname
  · simp only [newBatsmanPhase]
    exact nodup_keysOf_dictSet _ h2
  · simp only [newBatsmanPhase]
    exact h3
  · simp only [newBatsmanPhase]
    exact h4
  · simp only [newBatsmanPhase]
    exact hpname
  · simp only [newBatsmanPhase]
    exact h6

theorem keysInv_runsPhase (battingOrder bowlers : List Player) (st : LoopState)
    (b : Player) (r : ℕ) (hb : b ∈ bowlers)
    (h : keysInv battingOrder bowlers st) :
    keysInv battingOrder bowlers (runsPhase b r st) := by
  obtain ⟨h1, h2, h3, h4, h5, h6⟩ := h
  have hbs : keysOf (dictSet st.innings.batting_scores st.striker.name
      (dictGet st.innings.batting_scores st.striker.name 0 + r)) ⊆
      battingOrder.map Player.name := by
    intro x hx
    rcases mem_keysOf_dictSet hx with hx2 | hx2
    · exact h1 hx2
    · rw [hx2]
      exact h5
  have hbn : (keysOf (dictSet st.innings.batting_scores st.striker.name
      (dictGet st.innings.batting_scores st.striker.name 0 + r))).Nodup :=
    nodup_keysOf_dictSet _ h2
  have hw : keysOf (updBowlRuns st.innings.bowling_figures b.name r) ⊆
      bowlers.map Player.name := by
    intro x hx
    rcases mem_keysOf_updBowlRuns hx with hx2 | hx2
    · exact h3 hx2
    · rw [hx2]
      exact List.mem_map_of_mem Player.name hb
  unfold runsPhase
  by_cases hodd : r % 2 = 1
  · rw [if_pos hodd]
    exact ⟨hbs, hbn, hw, nodup_keysOf_updBowlRuns _ h4, h6, h5⟩
  · rw [if_neg hodd]
    exact ⟨hbs, hbn, hw, nodup_keysOf_updBowlRuns _ h4, h5, h6⟩

theorem keysInv_endOfOverPhase (battingOrder bowlers : List Player) (st : LoopState)
    (hbowl : bowlers ≠ [])
    (h : keysInv battingOrder bowlers st) :
    keysInv battingOrder bowlers (endOfOverPhase bowlers st) := by
  obtain ⟨h1, h2, h3, h4, h5, h6⟩ := h
  have hbm : currentBowler bowlers st.bowlerIndex ∈ bowlers :=
    currentBowler_mem bowlers st.bowlerIndex hbowl
  unfold endOfOverPhase
  by_cases hb : st.innings.balls = 6
  · rw [if_pos hb]
    refine ⟨h1, h2, ?_, nodup_keysOf_updBowlOvers h4, h6, h5⟩
    intro x hx
    rcases mem_keysOf_updBowlOvers hx with hx2 | hx2
    · exact h3 hx2
    · rw [hx2]
      exact List.mem_map_of_mem Player.name hbm
  · rw [if_neg hb]
    exact ⟨h1, h2, h3, h4, h5, h6⟩

theorem innStep_keys (maxOvers : ℕ) (target : Option ℤ)
    (battingOrder bowlers : List Player) (st : LoopState) (d : Draws)
    (hbowl : bowlers ≠ [])
    (h : keysInv battingOrder bowlers st) :
    (∀ st2, innStep maxOvers target battingOrder bowlers st d = .inl st2 →
      keysInv battingOrder bowlers st2)
    ∧ (∀ f, innStep maxOvers target battingOrder bowlers st d = .inr f →
      keysInv battingOrder bowlers f) := by
  have hbm : currentBowler bowlers st.bowlerIndex ∈ bowlers :=
    currentBowler_mem bowlers st.bowlerIndex hbowl
  rw [innStep]
  by_cases hg : ¬(st.innings.wickets < 10 ∧ st.innings.overs < maxOvers)
  · rw [if_pos hg]
    exact ⟨fun st2 heq => Sum.noConfusion heq,
      fun f heq => by injection heq with h2; rw [← h2]; exact h⟩
  · rw [if_neg hg]
    by_cases htr : target_is_reached target st.innings.score = true
    · rw [if_pos htr]
      exact ⟨fun st2 heq => Sum.noConfusion heq,
        fun f heq => by injection heq with h2; rw [← h2]; exact h⟩
    · rw [if_neg htr]
      by_cases hex : (simulate_ball d st.striker
          (currentBowler bowlers st.bowlerIndex)).is_extra = true
      · rw [if_pos hex]
        refine ⟨fun st2 heq => ?_, fun f heq => Sum.noConfusion heq⟩
        injection heq with h2
        rw [← h2]
        exact keysInv_extraPhase battingOrder bowlers st _ _ hbm h
      · rw [if_neg hex]
        have hst1 : keysInv battingOrder bowlers
            (legalBallPhase (currentBowler bowlers st.bowlerIndex) st) :=
          keysInv_legalBallPhase battingOrder bowlers st _ hbm h
        by_cases hwk : (simulate_ball d st.striker
            (currentBowler bowlers st.bowlerIndex)).is_wicket = true
        · rw [if_pos hwk]
          have hst2 : keysInv battingOrder bowlers
              (wicketPhase (currentBowler bowlers st.bowlerIndex)
                (legalBallPhase (currentBowler bowlers st.bowlerIndex) st)) :=
            keysInv_wicketPhase battingOrder bowlers _ _ hbm hst1
          by_cases hidx : (wicketPhase (currentBowler bowlers st.bowlerIndex)
              (legalBallPhase (currentBowler bowlers st.bowlerIndex) st)).batsmenIndex <
              battingOrder.length
          · rw [if_pos hidx]
            refine ⟨fun st2 heq => ?_, fun f heq => Sum.noConfusion heq⟩
            injection heq with h3
            rw [← h3]
            exact keysInv_endOfOverPhase battingOrder bowlers _ hbowl
              (keysInv_newBatsmanPhase battingOrder bowlers _ hidx hst2)
          · rw [if_neg hidx]
            refine ⟨fun st2 heq => Sum.noConfusion heq, fun f heq => ?_⟩
            injection heq with h3
            rw [← h3]
            exact hst2
        · rw [if_neg hwk]
          refine ⟨fun st2 heq => ?_, fun f heq => Sum.noConfusion heq⟩
          injection heq with h3
          rw [← h3]
          exact keysInv_endOfOverPhase battingOrder bowlers _ hbowl
            (keysInv_runsPhase battingOrder bowlers _ _ _ hbm hst1)

theorem innLoop_keys (maxOvers : ℕ) (target : Option ℤ)
    (battingOrder bowlers : List Player) (hbowl : bowlers ≠ []) :
    ∀ (ds : List Draws) (st : LoopState), keysInv battingOrder bowlers st →
      keysInv battingOrder bowlers (innLoop maxOvers target battingOrder bowlers st ds) := by
  intro ds
  induction ds with
  | nil =>
    intro st h
    rw [innLoop]
    exact h
  | cons d ds ih =>
    intro st h
    rw [innLoop]
    cases heq : innStep maxOvers target battingOrder bowlers st d with
    | inl st2 =>
      exact ih st2
        ((innStep_keys maxOvers target battingOrder bowlers st d hbowl h).1 st2 heq)
    | inr f =>
      exact (innStep_keys maxOvers target battingOrder bowlers st d hbowl h).2 f heq

theorem keysInv_init (battingOrder bowlers : List Player)
    (hlen : 2 ≤ battingOrder.length) :
    keysInv battingOrder bowlers (initLoopState battingOrder bowlers) := by
  have h0 : (0:ℕ) < battingOrder.length := by omega
  have h1 : (1:ℕ) < battingOrder.length := by omega
  have hs : (battingOrder.getD 0 dummyPlayer).name ∈ battingOrder.map Player.name := by
    rw [List.getD_eq_getElem battingOrder dummyPlayer h0]
    exact List.mem_map_of_mem Player.name (List.getElem_mem h0)
  have hns : (battingOrder.getD 1 dummyPlayer).name ∈ battingOrder.map Player.name := by
    rw [List.getD_eq_getElem battingOrder dummyPlayer h1]
    exact List.mem_map_of_mem Player.name (List.getElem_mem h1)
  refine ⟨?_, ?_, ?_, ?_, ?_, ?_⟩
  · show keysOf (dictSet (dictSet [] (battingOrder.getD 0 dummyPlayer).name 0)
      (battingOrder.getD 1 dummyPlayer).name 0) ⊆ battingOrder.map Player.name
    intro x hx
    rcases mem_keysOf_dictSet hx with hx2 | hx2
    · rcases mem_keysOf_dictSet hx2 with hx3 | hx3
      · simp [keysOf] at hx3
      · rw [hx3]
        exact hs
    · rw [hx2]
      exact hns
  · show (keysOf (dictSet (dictSet [] (battingOrder.getD 0 dummyPlayer).name 0)
      (battingOrder.getD 1 dummyPlayer).name 0)).Nodup
    exact nodup_keysOf_dictSet _ (nodup_keysOf_dictSet _ (by simp [keysOf]))
  · show keysOf ([] : List (String × BowlFig)) ⊆ bowlers.map Player.name
    simp [keysOf]
  · show (keysOf ([] : List (String × BowlFig))).Nodup
    simp [keysOf]
  · exact hs
  · exact hns

/-- Key facts about any innings produced by `simulate_innings_from`. -/
theorem innings_keys (n1 n2 : String) (battingOrder bowlers : List Player)
    (maxOvers : ℕ) (target : Option ℤ) (draws : List Draws) (i : InningsData)
    (hok : simulate_innings_from n1 n2 battingOrder bowlers maxOvers target draws =
      .ok i) :
    keysOf i.batting_scores ⊆ battingOrder.map Player.name ∧
    (keysOf i.batting_scores).Nodup ∧
    keysOf i.bowling_figures ⊆ bowlers.map Player.name ∧
    (keysOf i.bowling_figures).Nodup := by
  unfold simulate_innings_from at hok
  by_cases h1 : battingOrder.length < 2
  · rw [if_pos h1] at hok
    exact Except.noConfusion hok
  rw [if_neg h1] at hok
  by_cases h2 : bowlers.length < 1
  · rw [if_pos h2] at hok
    exact Except.noConfusion hok
  rw [if_neg h2] at hok
  injection hok with hok
  have hbowl : bowlers ≠ [] := by
    intro hnil
    rw [hnil] at h2
    simp at h2
  obtain ⟨k1, k2, k3, k4, _, _⟩ := innLoop_keys maxOvers target battingOrder bowlers
    hbowl draws _ (keysInv_init battingOrder bowlers (by omega))
  rw [hok] at k1 k2 k3 k4
  exact ⟨k1, k2, k3, k4⟩


/-! ## Player-of-match selection -/

theorem combined_entry {α : Type} (g : α → ℕ) (z : α) (hz : g z = 0)
    {d1 d2 : List (String × α)}
    (h1n : (keysOf d1).Nodup) (h2n : (keysOf d2).Nodup)
    (hdisj : ∀ k2 ∈ keysOf d2, k2 ∉ keysOf d1)
    {k : String} {v : α} (hm : (k, v) ∈ d1 ++ d2) :
    g (dictGet d1 k z) + g (dictGet d2 k z) = g v := by
  rcases List.mem_append.mp hm with h | h
  · have hk1 : k ∈ keysOf d1 := List.mem_map_of_mem Prod.fst h
    have hk2 : k ∉ keysOf d2 := fun hc => (hdisj k hc) hk1
    rw [dictGet_of_mem_nodup z h1n h, dictGet_of_not_mem z hk2, hz, add_zero]
  · have hk2 : k ∈ keysOf d2 := List.mem_map_of_mem Prod.fst h
    have hk1 : k ∉ keysOf d1 := hdisj k hk2
    rw [dictGet_of_not_mem z hk1, dictGet_of_mem_nodup z h2n h, hz, zero_add]

theorem combined_absent {α : Type} (g : α → ℕ) (z : α) (hz : g z = 0)
    {d1 d2 : List (String × α)} {k : String}
    (hk : k ∉ keysOf (d1 ++ d2)) :
    g (dictGet d1 k z) + g (dictGet d2 k z) = 0 := by
  rw [keysOf_append] at hk
  have h1 : k ∉ keysOf d1 := fun hc => hk (List.mem_append.mpr (Or.inl hc))
  have h2 : k ∉ keysOf d2 := fun hc => hk (List.mem_append.mpr (Or.inr hc))
  rw [dictGet_of_not_mem z h1, dictGet_of_not_mem z h2, hz]

theorem merged_argmax {α : Type} (g : α → ℕ) (z : α) (hz : g z = 0)
    (players : List Player) {d1 d2 : List (String × α)}
    (h1n : (keysOf d1).Nodup) (h2n : (keysOf d2).Nodup)
    (hdisj : ∀ k ∈ keysOf d2, k ∉ keysOf d1)
    (hk1 : keysOf d1 ⊆ players.map Player.name)
    (hk2 : keysOf d2 ⊆ players.map Player.name)
    {e : String × α} {es : List (String × α)}
    (hcons : d1 ++ d2 = e :: es) :
    (∃ q ∈ players, q.name = (pickMax g e es).1) ∧
    g (dictGet d1 (pickMax g e es).1 z) + g (dictGet d2 (pickMax g e es).1 z) =
      g (pickMax g e es).2 ∧
    (∀ q ∈ players, g (dictGet d1 q.name z) + g (dictGet d2 q.name z) ≤
      g (pickMax g e es).2) := by
  have htop_mem : pickMax g e es ∈ d1 ++ d2 := by
    rw [hcons]
    exact pickMax_mem g e es
  have htopkey : (pickMax g e es).1 ∈ keysOf (d1 ++ d2) :=
    List.mem_map_of_mem Prod.fst htop_mem
  refine ⟨?_, ?_, ?_⟩
  · have hmem : (pickMax g e es).1 ∈ players.map Player.name := by
      rw [keysOf_append] at htopkey
      rcases List.mem_append.mp htopkey with h | h
      · exact hk1 h
      · exact hk2 h
    obtain ⟨q, hq, hqn⟩ := List.mem_map.mp hmem
    exact ⟨q, hq, hqn⟩
  · have hm2 : ((pickMax g e es).1, (pickMax g e es).2) ∈ d1 ++ d2 := by
      simpa using htop_mem
    exact combined_entry g z hz h1n h2n hdisj hm2
  · intro q hq
    by_cases hmem : q.name ∈ keysOf (d1 ++ d2)
    · obtain ⟨v, hv⟩ := exists_mem_of_mem_keysOf hmem
      rw [combined_entry g z hz h1n h2n hdisj hv]
      have hv2 : (q.name, v) ∈ e :: es := by
        rw [← hcons]
        exact hv
      exact pickMax_ge g e es _ hv2
    · rw [combined_absent g z hz hmem]
      exact Nat.zero_le _


theorem select_pom_rules (teamA teamB : Team) (inn1 inn2 : InningsData)
    (hnn : ∀ p ∈ teamA.players ++ teamB.players, p.name ≠ "")
    (h1b : keysOf inn1.batting_scores ⊆ (teamA.players ++ teamB.players).map Player.name)
    (h2b : keysOf inn2.batting_scores ⊆ (teamA.players ++ teamB.players).map Player.name)
    (h1bn : (keysOf inn1.batting_scores).Nodup)
    (h2bn : (keysOf inn2.batting_scores).Nodup)
    (hdisjb : ∀ k ∈ keysOf inn2.batting_scores, k ∉ keysOf inn1.batting_scores)
    (h1w : keysOf inn1.bowling_figures ⊆ (teamA.players ++ teamB.players).map Player.name)
    (h2w : keysOf inn2.bowling_figures ⊆ (teamA.players ++ teamB.players).map Player.name)
    (h1wn : (keysOf inn1.bowling_figures).Nodup)
    (h2wn : (keysOf inn2.bowling_figures).Nodup)
    (hdisjw : ∀ k ∈ keysOf inn2.bowling_figures, k ∉ keysOf inn1.bowling_figures) :
    ((∃ p ∈ teamA.players ++ teamB.players, 3 ≤ combinedWickets inn1 inn2 p.name) →
      ∃ p, select_player_of_match teamA teamB inn1 inn2 = some p ∧
        p ∈ teamA.players ++ teamB.players ∧
        ∀ q ∈ teamA.players ++ teamB.players,
          combinedWickets inn1 inn2 q.name ≤ combinedWickets inn1 inn2 p.name)
    ∧ (¬(∃ p ∈ teamA.players ++ teamB.players, 3 ≤ combinedWickets inn1 inn2 p.name) →
      (∃ p ∈ teamA.players ++ teamB.players, 40 ≤ combinedRuns inn1 inn2 p.name) →
      ∃ p, select_player_of_match teamA teamB inn1 inn2 = some p ∧
        p ∈ teamA.players ++ teamB.players ∧
        ∀ q ∈ teamA.players ++ teamB.players,
          combinedRuns inn1 inn2 q.name ≤ combinedRuns inn1 inn2 p.name)
    ∧ (¬(∃ p ∈ teamA.players ++ teamB.players, 3 ≤ combinedWickets inn1 inn2 p.name) →
      ¬(∃ p ∈ teamA.players ++ teamB.players, 40 ≤ combinedRuns inn1 inn2 p.name) →
      ¬(inn1.batting_scores = [] ∧ inn2.batting_scores = []) →
      ∃ p, select_player_of_match teamA teamB inn1 inn2 = some p ∧
        p ∈ teamA.players ++ teamB.players ∧
        ∀ q ∈ teamA.players ++ teamB.players,
          combinedRuns inn1 inn2 q.name ≤ combinedRuns inn1 inn2 p.name)
    ∧ (¬(∃ p ∈ teamA.players ++ teamB.players, 3 ≤ combinedWickets inn1 inn2 p.name) →
      inn1.batting_scores = [] → inn2.batting_scores = [] →
      select_player_of_match teamA teamB inn1 inn2 = none) := by
  have hmb := dictMerge_eq_append hdisjb h2bn
  have hmw := dictMerge_eq_append hdisjw h2wn
  refine ⟨?_, ?_, ?_, ?_⟩
  · -- wickets rule
    rintro ⟨p, hp, hp3⟩
    rcases hwshape : inn1.bowling_figures ++ inn2.bowling_figures with _ | ⟨ew, esw⟩
    · exfalso
      have hnil1 : inn1.bowling_figures = [] := (List.append_eq_nil.mp hwshape).1
      have hnil2 : inn2.bowling_figures = [] := (List.append_eq_nil.mp hwshape).2
      unfold combinedWickets at hp3
      rw [hnil1, hnil2] at hp3
      simp [dictGet] at hp3
    · obtain ⟨⟨qw, hqw, hqwname⟩, htvW, hmaxW⟩ := merged_argmax BowlFig.wickets
        { overs := 0, runs := 0, wickets := 0 } rfl (teamA.players ++ teamB.players)
        h1wn h2wn hdisjw h1w h2w hwshape
      have h3 : (pickMax BowlFig.wickets ew esw).2.wickets ≥ 3 := by
        have hle := hmaxW p hp
        unfold combinedWickets at hp3
        omega
      have hkeyname : (pickMax BowlFig.wickets ew esw).1 ∈
          (teamA.players ++ teamB.players).map Player.name := by
        rw [← hqwname]
        exact List.mem_map_of_mem Player.name hqw
      obtain ⟨pf, hfind, hfname, hfmem⟩ := findPlayer_eq_some_of_mem hkeyname
      have hsel : select_player_of_match teamA teamB inn1 inn2 = some pf := by
        simp only [select_player_of_match]
        rw [hmw, hwshape]
        dsimp only
        rw [if_pos h3, hfind]
      refine ⟨pf, hsel, hfmem, ?_⟩
      intro q hq
      have hle := hmaxW q hq
      unfold combinedWickets
      rw [hfname]
      omega
  · -- runs rule
    rintro hnw ⟨p, hp, hp40⟩
    rcases hbshape : inn1.batting_scores ++ inn2.batting_scores with _ | ⟨eb, esb⟩
    · exfalso
      have hnil1 : inn1.batting_scores = [] := (List.append_eq_nil.mp hbshape).1
      have hnil2 : inn2.batting_scores = [] := (List.append_eq_nil.mp hbshape).2
      unfold combinedRuns at hp40
      rw [hnil1, hnil2] at hp40
      simp [dictGet] at hp40
    · obtain ⟨⟨qb, hqb, hqbname⟩, htvB, hmaxB⟩ := merged_argmax id 0 rfl
        (teamA.players ++ teamB.players) h1bn h2bn hdisjb h1b h2b hbshape
      simp only [id_eq] at htvB hmaxB
      have h40 : (pickMax id eb esb).2 ≥ 40 := by
        have hle := hmaxB p hp
        unfold combinedRuns at hp40
        omega
      have hkeyname : (pickMax id eb esb).1 ∈
          (teamA.players ++ teamB.players).map Player.name := by
        rw [← hqbname]
        exact List.mem_map_of_mem Player.name hqb
      obtain ⟨pf, hfind, hfname, hfmem⟩ := findPlayer_eq_some_of_mem hkeyname
      have hmaxgoal : ∀ q ∈ teamA.players ++ teamB.players,
          combinedRuns inn1 inn2 q.name ≤ combinedRuns inn1 inn2 pf.name := by
        intro q hq
        have hle := hmaxB q hq
        unfold combinedRuns
        rw [hfname]
        omega
      rcases hwshape : inn1.bowling_figures ++ inn2.bowling_figures with _ | ⟨ew, esw⟩
      · have hsel : select_player_of_match teamA teamB inn1 inn2 = some pf := by
          simp only [select_player_of_match]
          rw [hmw, hwshape, hmb, hbshape]
          dsimp only
          rw [if_neg (by norm_num : ¬((0:ℕ) ≥ 3)), if_pos h40, hfind]
        exact ⟨pf, hsel, hfmem, hmaxgoal⟩
      · obtain ⟨⟨qw, hqw, hqwname⟩, htvW, hmaxW⟩ := merged_argmax BowlFig.wickets
          { overs := 0, runs := 0, wickets := 0 } rfl (teamA.players ++ teamB.players)
          h1wn h2wn hdisjw h1w h2w hwshape
        have hlt3 : ¬((pickMax BowlFig.wickets ew esw).2.wickets ≥ 3) := by
          intro hge
          apply hnw
          refine ⟨qw, hqw, ?_⟩
          unfold combinedWickets
          rw [hqwname]
          omega
        have hsel : select_player_of_match teamA teamB inn1 inn2 = some pf := by
          simp only [select_player_of_match]
          rw [hmw, hwshape, hmb, hbshape]
          dsimp only
          rw [if_neg hlt3, if_pos h40, hfind]
        exact ⟨pf, hsel, hfmem, hmaxgoal⟩
  · -- fallback highest-scorer rule
    rintro hnw hnr hbne
    rcases hbshape : inn1.batting_scores ++ inn2.batting_scores with _ | ⟨eb, esb⟩
    · exact absurd (List.append_eq_nil.mp hbshape) hbne
    · obtain ⟨⟨qb, hqb, hqbname⟩, htvB, hmaxB⟩ := merged_argmax id 0 rfl
        (teamA.players ++ teamB.players) h1bn h2bn hdisjb h1b h2b hbshape
      simp only [id_eq] at htvB hmaxB
      have hlt40 : ¬((pickMax id eb esb).2 ≥ 40) := by
        intro hge
        apply hnr
        refine ⟨qb, hqb, ?_⟩
        unfold combinedRuns
        rw [hqbname]
        omega
      have hkeyname : (pickMax id eb esb).1 ∈
          (teamA.players ++ teamB.players).map Player.name := by
        rw [← hqbname]
        exact List.mem_map_of_mem Player.name hqb
      have hne : (pickMax id eb esb).1 ≠ "" := by
        rw [← hqbname]
        exact hnn qb hqb
      obtain ⟨pf, hfind, hfname, hfmem⟩ := findPlayer_eq_some_of_mem hkeyname
      have hmaxgoal : ∀ q ∈ teamA.players ++ teamB.players,
          combinedRuns inn1 inn2 q.name ≤ combinedRuns inn1 inn2 pf.name := by
        intro q hq
        have hle := hmaxB q hq
        unfold combinedRuns
        rw [hfname]
        omega
      rcases hwshape : inn1.bowling_figures ++ inn2.bowling_figures with _ | ⟨ew, esw⟩
      · have hsel : select_player_of_match teamA teamB inn1 inn2 = some pf := by
          simp only [select_player_of_match]
          rw [hmw, hwshape, hmb, hbshape]
          dsimp only
          rw [if_neg (by norm_num : ¬((0:ℕ) ≥ 3)), if_neg hlt40, if_pos hne, hfind]
        exact ⟨pf, hsel, hfmem, hmaxgoal⟩
      · obtain ⟨⟨qw, hqw, hqwname⟩, htvW, hmaxW⟩ := merged_argmax BowlFig.wickets
          { overs := 0, runs := 0, wickets := 0 } rfl (teamA.players ++ teamB.players)
          h1wn h2wn hdisjw h1w h2w hwshape
        have hlt3 : ¬((pickMax BowlFig.wickets ew esw).2.wickets ≥ 3) := by
          intro hge
          apply hnw
          refine ⟨qw, hqw, ?_⟩
          unfold combinedWickets
          rw [hqwname]
          omega
        have hsel : select_player_of_match teamA teamB inn1 inn2 = some pf := by
          simp only [select_player_of_match]
          rw [hmw, hwshape, hmb, hbshape]
          dsimp only
          rw [if_neg hlt3, if_neg hlt40, if_pos hne, hfind]
        exact ⟨pf, hsel, hfmem, hmaxgoal⟩
  · -- no batting data
    rintro hnw hnil1 hnil2
    have hbshape : inn1.batting_scores ++ inn2.batting_scores = [] := by
      rw [hnil1, hnil2]
      rfl
    rcases hwshape : inn1.bowling_figures ++ inn2.bowling_figures with _ | ⟨ew, esw⟩
    · simp only [select_player_of_match]
      rw [hmw, hwshape, hmb, hbshape]
      dsimp only
      rw [if_neg (by norm_num : ¬((0:ℕ) ≥ 3)), if_neg (by norm_num : ¬((0:ℕ) ≥ 40))]
    · obtain ⟨⟨qw, hqw, hqwname⟩, htvW, hmaxW⟩ := merged_argmax BowlFig.wickets
        { overs := 0, runs := 0, wickets := 0 } rfl (teamA.players ++ teamB.players)
        h1wn h2wn hdisjw h1w h2w hwshape
      have hlt3 : ¬((pickMax BowlFig.wickets ew esw).2.wickets ≥ 3) := by
        intro hge
        apply hnw
        refine ⟨qw, hqw, ?_⟩
        unfold combinedWickets
        rw [hqwname]
        omega
      simp only [select_player_of_match]
      rw [hmw, hwshape, hmb, hbshape]
      dsimp only
      rw [if_neg hlt3, if_neg (by norm_num : ¬((0:ℕ) ≥ 40))]


theorem fb_fw_cases (teamA teamB : Team) (c : Bool) (e : ℚ) :
    (first_batting_team teamA teamB c e = teamA ∧
      first_bowling_team teamA teamB c e = teamB) ∨
    (first_batting_team teamA teamB c e = teamB ∧
      first_bowling_team teamA teamB c e = teamA) := by
  unfold first_batting_team first_bowling_team toss_winner_team
  rcases c with _ | _ <;>
    by_cases he : elected_choice e = "bat" <;>
    simp only [he, if_true, if_false, Bool.false_eq_true, if_neg, ite_true, ite_false,
      Bool.cond_false, Bool.cond_true] <;>
    by_cases hab : teamB = teamA <;>
    simp [hab]

/-- **C4**: for every completed match whose rosters carry pairwise-distinct,
non-empty player names, player-of-match selection follows the claimed rules on
the combined per-player totals: a player with maximal combined wickets is
selected whenever some player has at least 3 combined wickets; otherwise a
player with maximal combined runs is selected whenever some player has at
least 40 combined runs; otherwise a player with maximal combined runs is
selected whenever any batting data exists; otherwise no award is given. -/
theorem C4_player_of_match (teamA teamB : Team) (fmt : MatchFormat)
    (tossCoin : Bool) (electDraw : ℚ) (d1 d2 : List Draws) (m : MatchResult)
    (hnodup : ((teamA.players ++ teamB.players).map Player.name).Nodup)
    (hnn : ∀ p ∈ teamA.players ++ teamB.players, p.name ≠ "")
    (hok : simulate_match teamA teamB fmt tossCoin electDraw d1 d2 = .ok m) :
    ((∃ p ∈ teamA.players ++ teamB.players,
        3 ≤ combinedWickets m.innings1 m.innings2 p.name) →
      ∃ p, m.player_of_match = some p ∧
        p ∈ teamA.players ++ teamB.players ∧
        ∀ q ∈ teamA.players ++ teamB.players,
          combinedWickets m.innings1 m.innings2 q.name ≤
            combinedWickets m.innings1 m.innings2 p.name)
    ∧ (¬(∃ p ∈ teamA.players ++ teamB.players,
        3 ≤ combinedWickets m.innings1 m.innings2 p.name) →
      (∃ p ∈ teamA.players ++ teamB.players,
        40 ≤ combinedRuns m.innings1 m.innings2 p.name) →
      ∃ p, m.player_of_match = some p ∧
        p ∈ teamA.players ++ teamB.players ∧
        ∀ q ∈ teamA.players ++ teamB.players,
          combinedRuns m.innings1 m.innings2 q.name ≤
            combinedRuns m.innings1 m.innings2 p.name)
    ∧ (¬(∃ p ∈ teamA.players ++ teamB.players,
        3 ≤ combinedWickets m.innings1 m.innings2 p.name) →
      ¬(∃ p ∈ teamA.players ++ teamB.players,
        40 ≤ combinedRuns m.innings1 m.innings2 p.name) →
      ¬(m.innings1.batting_scores = [] ∧ m.innings2.batting_scores = []) →
      ∃ p, m.player_of_match = some p ∧
        p ∈ teamA.players ++ teamB.players ∧
        ∀ q ∈ teamA.players ++ teamB.players,
          combinedRuns m.innings1 m.innings2 q.name ≤
            combinedRuns m.innings1 m.innings2 p.name)
    ∧ (¬(∃ p ∈ teamA.players ++ teamB.players,
        3 ≤ combinedWickets m.innings1 m.innings2 p.name) →
      m.innings1.batting_scores = [] → m.innings2.batting_scores = [] →
      m.player_of_match = none) := by
  obtain ⟨i1, i2, hok1, hok2, hi1, hi2, hpom, _⟩ :=
    simulate_match_ok_elim teamA teamB fmt tossCoin electDraw d1 d2 m hok
  subst hi1
  subst hi2
  have hdisjnames : List.Disjoint (teamA.players.map Player.name)
      (teamB.players.map Player.name) := by
    rw [List.map_append] at hnodup
    exact (List.nodup_append.mp hnodup).2.2
  rw [hpom]
  rcases fb_fw_cases teamA teamB tossCoin electDraw with ⟨hfb, hfw⟩ | ⟨hfb, hfw⟩
  all_goals (
    rw [hfb, hfw] at hok1 hok2
    simp only [simulate_innings] at hok1 hok2
    obtain ⟨h1bo, h1bn, h1wo, h1wn⟩ := innings_keys _ _ _ _ _ _ _ _ hok1
    obtain ⟨h2bo, h2bn, h2wo, h2wn⟩ := innings_keys _ _ _ _ _ _ _ _ hok2)
  · -- first batting = teamA
    have hb1 : keysOf m.innings1.batting_scores ⊆ teamA.players.map Player.name :=
      fun k hk => List.map_subset Player.name (get_batting_order_subset teamA) (h1bo hk)
    have hb2 : keysOf m.innings2.batting_scores ⊆ teamB.players.map Player.name :=
      fun k hk => List.map_subset Player.name (get_batting_order_subset teamB) (h2bo hk)
    have hw1 : keysOf m.innings1.bowling_figures ⊆ teamB.players.map Player.name :=
      fun k hk => List.map_subset Player.name (get_bowlers_subset teamB) (h1wo hk)
    have hw2 : keysOf m.innings2.bowling_figures ⊆ teamA.players.map Player.name :=
      fun k hk => List.map_subset Player.name (get_bowlers_subset teamA) (h2wo hk)
    refine select_pom_rules teamA teamB m.innings1 m.innings2 hnn
      ?_ ?_ h1bn h2bn ?_ ?_ ?_ h1wn h2wn ?_
    · intro k hk
      rw [List.map_append, List.mem_append]
      exact Or.inl (hb1 hk)
    · intro k hk
      rw [List.map_append, List.mem_append]
      exact Or.inr (hb2 hk)
    · intro k hk2 hk1
      exact hdisjnames (hb1 hk1) (hb2 hk2)
    · intro k hk
      rw [List.map_append, List.mem_append]
      exact Or.inr (hw1 hk)
    · intro k hk
      rw [List.map_append, List.mem_append]
      exact Or.inl (hw2 hk)
    · intro k hk2 hk1
      exact hdisjnames (hw2 hk2) (hw1 hk1)
  · -- first batting = teamB
    have hb1 : keysOf m.innings1.batting_scores ⊆ teamB.players.map Player.name :=
      fun k hk => List.map_subset Player.name (get_batting_order_subset teamB) (h1bo hk)
    have hb2 : keysOf m.innings2.batting_scores ⊆ teamA.players.map Player.name :=
      fun k hk => List.map_subset Player.name (get_batting_order_subset teamA) (h2bo hk)
    have hw1 : keysOf m.innings1.bowling_figures ⊆ teamA.players.map Player.name :=
      fun k hk => List.map_subset Player.name (get_bowlers_subset teamA) (h1wo hk)
    have hw2 : keysOf m.innings2.bowling_figures ⊆ teamB.players.map Player.name :=
      fun k hk => List.map_subset Player.name (get_bowlers_subset teamB) (h2wo hk)
    refine select_pom_rules teamA teamB m.innings1 m.innings2 hnn
      ?_ ?_ h1bn h2bn ?_ ?_ ?_ h1wn h2wn ?_
    · intro k hk
      rw [List.map_append, List.mem_append]
      exact Or.inr (hb1 hk)
    · intro k hk
      rw [List.map_append, List.mem_append]
      exact Or.inl (hb2 hk)
    · intro k hk2 hk1
      exact hdisjnames (hb2 hk2) (hb1 hk1)
    · intro k hk
      rw [List.map_append, List.mem_append]
      exact Or.inl (hw1 hk)
    · intro k hk
      rw [List.map_append, List.mem_append]
      exact Or.inr (hw2 hk)
    · intro k hk2 hk1
      exact hdisjnames (hw1 hk1) (hw2 hk2)


set_option maxHeartbeats 4000000 in
/-- C4 counterexample: a concrete completed match in which batting data exists
(the opening batter, whose name is the empty string, scored the only run) and
no player reached 3 combined wickets, yet no player of the match is awarded:
the Python truthiness test `if top_scorer_name:` rejects the empty-string name. -/
theorem C4_counterexample :
    simulate_match teamE teamF .T20 true 0.5
      [singleBall, wicketBall, wicketBall] [wicketBall, wicketBall] = .ok c4MatchResult
    ∧ c4MatchResult.player_of_match = none
    ∧ c4MatchResult.innings1.batting_scores = [("", 1), ("e1", 0), ("eb", 0)]
    ∧ combinedRuns c4MatchResult.innings1 c4MatchResult.innings2 "" = 1
    ∧ combinedWickets c4MatchResult.innings1 c4MatchResult.innings2 "" = 0
    ∧ combinedWickets c4MatchResult.innings1 c4MatchResult.innings2 "e1" = 0
    ∧ combinedWickets c4MatchResult.innings1 c4MatchResult.innings2 "eb" = 2
    ∧ combinedWickets c4MatchResult.innings1 c4MatchResult.innings2 "f1" = 0
    ∧ combinedWickets c4MatchResult.innings1 c4MatchResult.innings2 "f2" = 0
    ∧ combinedWickets c4MatchResult.innings1 c4MatchResult.innings2 "fb" = 2 := by
  refine ⟨?_, rfl, rfl, ?_, ?_, ?_, ?_, ?_, ?_, ?_⟩
  · norm_num +decide [simulate_match, simulate_innings, get_batting_order, get_bowlers,
      sortByBattingAvgDesc, bowlSortKey, stableSort, stableInsert,
      first_batting_team, first_bowling_team, toss_winner_team, elected_choice,
      get_max_overs, select_player_of_match, dictMerge, pickMax, findPlayer,
      simulate_innings_from, innLoop, innStep, initLoopState, endOfOverPhase,
      extraPhase, legalBallPhase, wicketPhase, newBatsmanPhase, runsPhase,
      simulate_ball, calculate_dismissal_probability, calculate_scoring_probabilities,
      aggression, pick_runs, target_is_reached, currentBowler, dummyPlayer,
      ensureBowlFig, updBowlRuns, updBowlWickets, updBowlOvers,
      dictGet, dictSet, dictContains, emptyInnings,
      BASE_DISMISSAL_PROBABILITY, MIN_DISMISSAL_PROBABILITY, MAX_DISMISSAL_PROBABILITY,
      BATTING_AVERAGE_BASELINE, MIN_BATTING_AVERAGE, BOWLING_AVERAGE_BASELINE,
      MIN_BOWLING_AVERAGE, MIN_DOT_PROBABILITY, MAX_DOT_PROBABILITY,
      SINGLE_PROBABILITY, TWO_PROBABILITY, THREE_PROBABILITY, MIN_FOUR_PROBABILITY,
      MAX_FOUR_PROBABILITY, MIN_SIX_PROBABILITY, MAX_SIX_PROBABILITY,
      wicketBall, max_def, min_def,
      teamE, teamF, batE0, batE1, bowlE, batF1, batF2, bowlF, singleBall,
      c4MatchResult]
  all_goals norm_num +decide [combinedRuns, combinedWickets, dictGet, c4MatchResult]

set_option maxHeartbeats 4000000 in
/-- C4 witness: in the concrete match of `c2MatchResult` no player reached 3
combined wickets or 40 combined runs, batting data exists, and the selection
rules award the player of the match to a highest combined scorer. -/
theorem C4_witness :
    (((teamP.players ++ teamQ.players).map Player.name).Nodup
      ∧ (∀ p ∈ teamP.players ++ teamQ.players, p.name ≠ ""))
    ∧ ∃ p, c2MatchResult.player_of_match = some p ∧
        p ∈ teamP.players ++ teamQ.players ∧
        ∀ q ∈ teamP.players ++ teamQ.players,
          combinedRuns c2MatchResult.innings1 c2MatchResult.innings2 q.name ≤
            combinedRuns c2MatchResult.innings1 c2MatchResult.innings2 p.name := by
  have heq : simulate_match teamP teamQ .T20 true 0.5
      [wicketBall, wicketBall] [singleBall] = .ok c2MatchResult := by
    norm_num +decide [simulate_match, simulate_innings, get_batting_order, get_bowlers,
      sortByBattingAvgDesc, bowlSortKey, stableSort, stableInsert,
      first_batting_team, first_bowling_team, toss_winner_team, elected_choice,
      get_max_overs, select_player_of_match, dictMerge, pickMax, findPlayer,
      simulate_innings_from, innLoop, innStep, initLoopState, endOfOverPhase,
      extraPhase, legalBallPhase, wicketPhase, newBatsmanPhase, runsPhase,
      simulate_ball, calculate_dismissal_probability, calculate_scoring_probabilities,
      aggression, pick_runs, target_is_reached, currentBowler, dummyPlayer,
      ensureBowlFig, updBowlRuns, updBowlWickets, updBowlOvers,
      dictGet, dictSet, dictContains, emptyInnings,
      BASE_DISMISSAL_PROBABILITY, MIN_DISMISSAL_PROBABILITY, MAX_DISMISSAL_PROBABILITY,
      BATTING_AVERAGE_BASELINE, MIN_BATTING_AVERAGE, BOWLING_AVERAGE_BASELINE,
      MIN_BOWLING_AVERAGE, MIN_DOT_PROBABILITY, MAX_DOT_PROBABILITY,
      SINGLE_PROBABILITY, TWO_PROBABILITY, THREE_PROBABILITY, MIN_FOUR_PROBABILITY,
      MAX_FOUR_PROBABILITY, MIN_SIX_PROBABILITY, MAX_SIX_PROBABILITY,
      wicketBall, max_def, min_def,
      teamP, teamQ, pBat1, pBat2, pBowl, qBat1, qBat2, qBowl, singleBall,
      c2MatchResult]
  refine ⟨⟨by decide, by decide⟩, ?_⟩
  exact (C4_player_of_match teamP teamQ .T20 true 0.5
      [wicketBall, wicketBall] [singleBall] c2MatchResult
      (by decide) (by decide) heq).2.2.1
    (by decide) (by decide) (by decide)

end Cricket
